import Mathlib

/-!
Verification development for the `pandora_cas` state-reconciliation core
(`pandora_cas/data.py`, `pandora_cas/device.py`, `pandora_cas/account.py`).

The Python source is shallowly embedded: Python dictionaries become
association lists (`List (String × Val)`, preserving insertion order, with
assignment replacing an existing key in place), Python runtime values become
the inductive `Val`, and code that can raise becomes `Except PyErr`.
Machine-irrelevant effects (logging) are dropped.  The attrs field
converters (`int_or_none`, `float_or_none`, `bool_or_none`,
`lock_lat_lng_conv`, ...) are modelled per field by `apply_conv` and are
re-applied on every construction — in particular `attr.evolve` runs every
field's converter again, so the non-idempotent `lock_lat_lng_conv`
(division by 1000000) rescales a non-`None` lock coordinate on each
evolve.  Converters are modelled exactly on the integer/`None` inputs the
theorems quantify over (`num_or_none`, `conv_safe`); Python float values
produced by the lock converter are idealized as exact rationals.
-/

set_option autoImplicit false
set_option maxRecDepth 8192

namespace PandoraCas

/-- A Python runtime value, restricted to the shapes the reconciliation core
manipulates: `None`, integers (timestamps, speeds, ... — integer-valued in
all claims), the non-integer float values the `lock_lat_lng_conv` converter
produces — `flt m s` models the float `m / 10^s` as an exact (unnormalized)
decimal scaled integer; binary-float rounding, and float value-equality
across different representations, are not modelled — strings, the empty
tuple used as default for sequence fields, and the `last_updated` ledger
dictionary that `evolve_args` threads through `init_args`. -/
inductive Val where
  | none
  | num (n : Int)
  | flt (mant : Int) (scale : Nat)
  | str (s : String)
  | emptySeq
  | ledger (m : List (String × Int))
deriving DecidableEq, Repr

/-- The Python exceptions the embedded code can raise. -/
inductive PyErr where
  | valueError (msg : String)
  | typeError
  | keyError
  | pandora (msg : String)
deriving DecidableEq, Repr

instance {α β : Type} [DecidableEq α] [DecidableEq β] : DecidableEq (Except α β) :=
  fun x y =>
    match x, y with
    | .error a, .error b =>
      if h : a = b then .isTrue (by rw [h]) else .isFalse (by intro hc; cases hc; exact h rfl)
    | .ok a, .ok b =>
      if h : a = b then .isTrue (by rw [h]) else .isFalse (by intro hc; cases hc; exact h rfl)
    | .error _, .ok _ => .isFalse (by intro hc; cases hc)
    | .ok _, .error _ => .isFalse (by intro hc; cases hc)

/-- A Python `dict[str, ...]` as an insertion-ordered association list. -/
abbrev Batch := List (String × Val)

/-- Python `d.get(k)` (`none` when the key is absent). -/
def alist_get {α : Type} (b : List (String × α)) (k : String) : Option α :=
  (b.find? (fun p => p.1 == k)).map Prod.snd

/-- Python `d.get(k)` where an absent key and a stored `None` value coincide,
as in `state_args.get(...) is None` checks. -/
def get_or_none (b : Batch) (k : String) : Val :=
  (alist_get b k).getD Val.none

/-- Python `d[k] = v`: replaces an existing entry in place (keeping its
position in insertion order), otherwise appends. -/
def dict_set {α : Type} : List (String × α) → String → α → List (String × α)
  | [], k, v => [(k, v)]
  | p :: rest, k, v => if p.1 = k then (k, v) :: rest else p :: dict_set rest k v

/-- Python `{**a, **b}`. -/
def dict_merge {α : Type} (a b : List (String × α)) : List (String × α) :=
  b.foldl (fun acc p => dict_set acc p.1 p.2) a

/-- Python `d.pop(k, None)` viewed as the resulting dictionary. -/
def remove_key (b : Batch) (k : String) : Batch :=
  b.filter (fun p => p.1 ≠ k)

/-- Python truthiness of a `Val`. -/
def truthy : Val → Bool
  | .none => false
  | .num n => n != 0
  | .flt m _ => m != 0
  | .str s => !s.isEmpty
  | .emptySeq => false
  | .ledger m => !m.isEmpty

/-- Whether a value has one of the shapes the attrs `int`/`float` field
converters guarantee (an integer or `None`); theorems quantifying over
batches restrict values to these shapes. -/
def num_or_none : Val → Bool
  | .num _ => true
  | .none => true
  | _ => false

/-- Decimal digit-string accumulator used by `py_int`. -/
def digits_to_nat : List Char → Nat → Option Nat
  | [], acc => some acc
  | c :: cs, acc =>
    if c.isDigit then digits_to_nat cs (acc * 10 + (c.toNat - 48)) else Option.none

/-- Python `int(x)` on the values of the model: numbers pass through,
(optionally negated) decimal strings parse, anything else raises. -/
def py_int : Val → Except PyErr Int
  | .num n => .ok n
  | .str s =>
    match s.data with
    | [] => .error (.valueError "invalid literal for int")
    | '-' :: cs =>
      match cs with
      | [] => .error (.valueError "invalid literal for int")
      | _ =>
        match digits_to_nat cs 0 with
        | some n => .ok (-(n : Int))
        | Option.none => .error (.valueError "invalid literal for int")
    | cs =>
      match digits_to_nat cs 0 with
      | some n => .ok (n : Int)
      | Option.none => .error (.valueError "invalid literal for int")
  | _ => .error .typeError

/-- The decimal-string parse shared by the modelled numeric converters
(`int(x)` inside `int_or_none` and friends): optionally negated digit
strings parse, anything else fails. -/
def str_to_int_opt (s : String) : Option Int :=
  match s.data with
  | [] => Option.none
  | '-' :: cs =>
    match cs with
    | [] => Option.none
    | _ => (digits_to_nat cs 0).map (fun n => -(n : Int))
  | cs => (digits_to_nat cs 0).map (fun n => (n : Int))

/-- The attrs field converter attached to a `CurrentState` field:

* `raw` — no converter installed (`field_emp` without a converter:
  `phone`, `phone_other`, `gear`);
* `cInt` — `int_or_none` behind the `field_opt` `None` guard (also used
  for `identifier`, whose converter is the bare `int`, and `bit_state`,
  whose converter is `BitStatus(int(x))`: both agree with `cInt` on the
  integer/`None` domain the theorems quantify over, and `BitStatus` is an
  `IntFlag`, equal to its integer value under Python `==`);
* `cFloat` — `float_or_none` behind the `None` guard;
* `cBool` — `bool_or_none`: Python booleans are modelled as the integers
  `0`/`1` they are `==`-equal to;
* `cEmp` — `field_emp` with a nested-schema converter (`balance`,
  `balance_other`, `track`): a falsy value collapses to `None`; nested
  construction itself is not modelled (truthy values already model
  constructed instances and pass through, as `conv` does on instances);
* `cLock` — `lock_lat_lng_conv`: `None` passes (the `field_opt` guard),
  a number is divided by 1000000 — this converter is **not** idempotent;
* `cList` — `field_list`'s `tuple(map(conv, x))`: element conversion is
  not modelled (stored tuples already model converted elements). -/
inductive Conv where
  | raw
  | cInt
  | cFloat
  | cBool
  | cEmp
  | cLock
  | cList
deriving DecidableEq, Repr

/-- One application of a field converter, exact on the value shapes the
theorems quantify over (see `conv_safe`).  Off that domain Python may
raise (`lock_lat_lng_conv` on a non-numeric value, a nested or sequence
converter on a non-mapping/non-iterable); the model maps such inputs to
`None` and the theorems' hypotheses exclude them. -/
def apply_conv : Conv → Val → Val
  | .raw, v => v
  | .cInt, .none => .none
  | .cInt, .num n => .num n
  | .cInt, .flt m s => .num (Int.tdiv m ((10 : Int) ^ s))
  | .cInt, .str s =>
    match str_to_int_opt s with
    | some n => .num n
    | Option.none => .none
  | .cInt, _ => .none
  | .cFloat, .none => .none
  | .cFloat, .num n => .num n
  | .cFloat, .flt m s => .flt m s
  | .cFloat, .str s =>
    match str_to_int_opt s with
    | some n => .num n
    | Option.none => .none
  | .cFloat, _ => .none
  | .cBool, .none => .none
  | .cBool, v => .num (if truthy v then 1 else 0)
  | .cEmp, v => if truthy v then v else .none
  | .cLock, .none => .none
  | .cLock, .num n => .flt n 6
  | .cLock, .flt m s => .flt m (s + 6)
  | .cLock, _ => .none
  | .cList, v => v

/-- The domain on which `apply_conv` mirrors the Python converter exactly
and Python raises no exception: numeric/`None` values for the numeric and
lock converters, falsy values for nested-schema converters (a truthy
non-instance would crash the nested `from_dict`), the empty tuple for
sequence converters, anything for the total `raw`/`bool` converters. -/
def conv_safe : Conv → Val → Bool
  | .raw, _ => true
  | .cInt, v => num_or_none v
  | .cFloat, v => num_or_none v
  | .cBool, _ => true
  | .cEmp, v => !(truthy v)
  | .cLock, v =>
    match v with
    | .none => true
    | .num _ => true
    | .flt _ _ => true
    | _ => false
  | .cList, v => v == Val.emptySeq

/-- Python `x or -1` as used by `__attrs_post_init__` on a timestamp value:
a non-zero number passes through, everything falsy collapses to `-1`. -/
def py_or_neg1 : Val → Int
  | .num n => if n = 0 then -1 else n
  | _ => -1

/-- Python `round(a / d)` for integers `a` and positive `d`: the quotient is
rounded half-to-even (banker's rounding), as `round` does on the exact values
appearing in the claims. -/
def round_half_even_div (a d : Int) : Int :=
  let q := a.fdiv d
  let r := a.fmod d
  if 2 * r < d then q
  else if d < 2 * r then q + 1
  else if q % 2 = 0 then q else q + 1

/-- One attrs field of `CurrentState`: its init-parameter name, the freshness
source recorded in its metadata (`timestamp_source`, default
`state_timestamp_utc`, `none` when declared with `None`), its default
value, and its converter. -/
structure FieldSpec where
  name : String
  ts : Option String
  dflt : Val
  conv : Conv
deriving DecidableEq, Repr

/-- `field_int` with the default freshness source `state_timestamp_utc`. -/
def fInt (n : String) : FieldSpec := ⟨n, some "state_timestamp_utc", Val.none, Conv.cInt⟩

/-- Integer-converted field declared with `timestamp_source=None`
(the timestamp fields and `identifier`). -/
def fIntN (n : String) : FieldSpec := ⟨n, Option.none, Val.none, Conv.cInt⟩

/-- `field_float` with the default freshness source. -/
def fFloat (n : String) : FieldSpec := ⟨n, some "state_timestamp_utc", Val.none, Conv.cFloat⟩

/-- `field_bool` with the default freshness source. -/
def fBool (n : String) : FieldSpec := ⟨n, some "state_timestamp_utc", Val.none, Conv.cBool⟩

/-- `field_bool` declared with `timestamp_source=None` (`is_online`). -/
def fBoolN (n : String) : FieldSpec := ⟨n, Option.none, Val.none, Conv.cBool⟩

/-- `field_opt` with `lock_lat_lng_conv` (the lock coordinates). -/
def fLck (n : String) : FieldSpec := ⟨n, some "state_timestamp_utc", Val.none, Conv.cLock⟩

/-- `field_emp` without a converter (plain strings). -/
def fRaw (n : String) : FieldSpec := ⟨n, some "state_timestamp_utc", Val.none, Conv.raw⟩

/-- `field_emp` with a nested-schema converter. -/
def fEmp (n : String) : FieldSpec := ⟨n, some "state_timestamp_utc", Val.none, Conv.cEmp⟩

/-- Sequence field (`field_list`, default `()`), default freshness source. -/
def fLst (n : String) : FieldSpec := ⟨n, some "state_timestamp_utc", Val.emptySeq, Conv.cList⟩

/-- The attrs fields of `CurrentState`, in declaration order
(`data.py`, class `CurrentState`).  The synthetic `_last_updated` field is
kept out of this list: it carries no `source_value_identifier` /
`timestamp_source` metadata and is modelled as the separate
`CurrentState.last_updated` component. -/
def SCHEMA : List FieldSpec := [
  fIntN "identifier",
  fInt "active_sim",
  fEmp "balance",
  fEmp "balance_other",
  fInt "bit_state",
  fFloat "can_mileage",
  fInt "engine_rpm",
  fFloat "engine_temperature",
  fFloat "exterior_temperature",
  fFloat "fuel",
  fInt "gsm_level",
  fFloat "interior_temperature",
  fBool "is_evacuating",
  fBool "is_moving",
  fBoolN "is_online",
  fInt "key_number",
  fFloat "latitude",
  fLck "lock_latitude",
  fLck "lock_longitude",
  fFloat "longitude",
  fFloat "mileage",
  fFloat "engine_hours",
  fRaw "phone",
  fRaw "phone_other",
  fInt "relay",
  fFloat "rotation",
  fFloat "speed",
  fInt "tag_number",
  fFloat "tracking_remaining",
  fFloat "voltage",
  fFloat "internal_voltage",
  fRaw "gear",
  fBool "battery_warm_up",
  fBool "lbs_coords",
  fInt "engine_remains",
  fLst "obd_error_codes",
  fBool "can_belt_back_center",
  fBool "can_belt_back_left",
  fBool "can_belt_back_right",
  fBool "can_belt_driver",
  fBool "can_belt_passenger",
  fBool "can_glass_back_left",
  fBool "can_glass_back_right",
  fBool "can_glass_driver",
  fBool "can_glass_passenger",
  fFloat "can_tpms_back_left",
  fFloat "can_tpms_back_right",
  fFloat "can_tpms_front_left",
  fFloat "can_tpms_front_right",
  fFloat "can_tpms_reserve",
  fInt "climate_firmware",
  fBool "can_climate",
  fBool "can_climate_ac",
  fBool "can_climate_defroster",
  fBool "can_climate_evb_heat",
  fBool "can_climate_glass_heat",
  fInt "can_climate_seat_heat_level",
  fInt "can_climate_seat_vent_level",
  fBool "can_climate_steering_heat",
  fInt "can_climate_temperature",
  fLst "heater_errors",
  fBool "heater_flame",
  fBool "heater_power",
  fFloat "heater_temperature",
  fFloat "heater_voltage",
  fFloat "can_average_speed",
  fFloat "can_consumption",
  fFloat "can_consumption_after",
  fInt "can_days_to_maintenance",
  fBool "can_low_liquid",
  fFloat "can_mileage_by_battery",
  fFloat "can_mileage_to_empty",
  fFloat "can_mileage_to_maintenance",
  fFloat "can_engine_hours",
  fBool "can_need_pads_exchange",
  fBool "can_seat_taken",
  fFloat "ev_state_of_charge",
  fFloat "ev_state_of_health",
  fBool "ev_charging_connected",
  fBool "ev_charging_slow",
  fBool "ev_charging_fast",
  fBool "ev_status_ready",
  fInt "battery_temperature",
  fLst "liquid_sensors",
  fInt "bunker",
  fInt "ex_status",
  fLst "fuel_tanks",
  fLst "sims",
  fIntN "state_timestamp",
  fIntN "state_timestamp_utc",
  fIntN "online_timestamp",
  fIntN "online_timestamp_utc",
  fIntN "settings_timestamp_utc",
  fIntN "command_timestamp_utc",
  fEmp "track"]

/-- Lookup in `attributes = {a.alias: a for a in attr.fields(cls)}`:
`none` means the key is unknown to the schema, `some ts` returns the field's
`timestamp_source` metadata.  `_last_updated` has alias `last_updated` and
empty metadata, hence `some none`. -/
def find_attr_ts (k : String) : Option (Option String) :=
  if k = "last_updated" then some Option.none
  else (SCHEMA.find? (fun f => f.name == k)).map FieldSpec.ts

/-- Whether a batch key names an attribute of the schema. -/
def known_attr (k : String) : Bool :=
  (find_attr_ts k).isSome

/-- The converter of a schema attribute (by init-parameter name);
`raw` for keys without one (also for `last_updated`, whose `dict`
converter leaves the mapping unchanged in the modelled sense). -/
def conv_of (k : String) : Conv :=
  ((SCHEMA.find? (fun f => f.name == k)).map FieldSpec.conv).getD Conv.raw

/-- The normalized immutable telemetry snapshot.  `fields` holds every attrs
field of the class (in declaration order), `last_updated` is the freshness
ledger `_last_updated`. -/
structure CurrentState where
  fields : List (String × Val)
  last_updated : List (String × Int)
deriving DecidableEq, Repr

/-- The ledger built by `CurrentState.__attrs_post_init__`: one entry per
field with a non-`None` `timestamp_source`, valued
`getattr(self, timestamp_key, None) or -1`. -/
def attrs_post_init_ledger (fields : List (String × Val)) : List (String × Int) :=
  SCHEMA.filterMap (fun f =>
    f.ts.map (fun tk => (f.name, py_or_neg1 (get_or_none fields tk))))

/-- Finishing a `CurrentState` construction: `__attrs_post_init__` rebuilds
`_last_updated` from the just-initialized timestamp fields, overwriting
whatever ledger was passed to `__init__`. -/
def attrs_post_init (fields : List (String × Val)) : CurrentState :=
  ⟨fields, attrs_post_init_ledger fields⟩

/-- Attribute access `getattr(state, k)` on the modelled fields. -/
def lookup_field (s : CurrentState) (k : String) : Val :=
  (alist_get s.fields k).getD Val.none

/-- States produced by the class constructor: the stored ledger is the one
`__attrs_post_init__` computes from the fields. -/
def IsPostInit (s : CurrentState) : Prop :=
  s.last_updated = attrs_post_init_ledger s.fields

/-- States whose field list has exactly the schema's keys (true of every
state the constructor or `attr.evolve` produces). -/
def FieldsShaped (s : CurrentState) : Prop :=
  s.fields.map Prod.fst = SCHEMA.map FieldSpec.name

/-- The single freshness value `__attrs_post_init__` records for every
governed attribute: in this schema every declared `timestamp_source` is
`state_timestamp_utc`, so the whole ledger is uniform. -/
def ledger_val (s : CurrentState) : Int :=
  py_or_neg1 (get_or_none s.fields "state_timestamp_utc")

/-- No attribute of the batch would be skipped as stale: either the batch
supplies no governing `state_timestamp_utc` (then every update takes the
warn path and is applied), or the supplied value is at least the ledger
value. -/
def NoSkip (s : CurrentState) (args : Batch) : Prop :=
  match get_or_none args "state_timestamp_utc" with
  | Val.num t => ledger_val s ≤ t
  | _ => True

instance (s : CurrentState) (args : Batch) : Decidable (NoSkip s args) := by
  unfold NoSkip
  split <;> infer_instance

/-- A well-formed update batch: no duplicate keys (Python dictionaries
cannot have any), every key known to the schema, every value of a shape
the field converters produce, and no attempt to pass the bookkeeping
`last_updated` key directly. -/
def BatchKeysOK (b : Batch) : Prop :=
  (b.map Prod.fst).Nodup ∧
    ∀ p ∈ b, known_attr p.1 = true ∧ num_or_none p.2 = true ∧ p.1 ≠ "last_updated"

/-- The loop body of `CurrentState.evolve_args`, iterating over
`changes.items()` in insertion order and accumulating `init_args` and
`new_updates`.  Unknown attributes raise
`ValueError(f"Unknown attribute: {attribute}")`; a freshness-governed
attribute whose governing timestamp is present in the batch is skipped when
the ledger records a strictly newer value, applied (advancing `new_updates`)
otherwise; a governed attribute without a batch timestamp, and any
ungoverned attribute, is applied unconditionally.  The warning and debug
logging paths are not modelled. -/
def evolve_args_core (ledger : List (String × Int)) (changes : Batch) :
    Batch → Batch → List (String × Int) → Except PyErr (Batch × List (String × Int))
  | [], init_args, new_updates => .ok (init_args, new_updates)
  | (k, v) :: rest, init_args, new_updates =>
    match find_attr_ts k with
    | Option.none => .error (.valueError ("Unknown attribute: " ++ k))
    | some Option.none => evolve_args_core ledger changes rest (dict_set init_args k v) new_updates
    | some (some tk) =>
      match get_or_none changes tk with
      | .none => evolve_args_core ledger changes rest (dict_set init_args k v) new_updates
      | .num t =>
        match alist_get ledger k with
        | Option.none => .error .keyError
        | some lu =>
          if t < lu then
            evolve_args_core ledger changes rest init_args new_updates
          else
            evolve_args_core ledger changes rest (dict_set init_args k v) (dict_set new_updates k t)
      | _ =>
        match alist_get ledger k with
        | Option.none => .error .keyError
        | some _ => .error .typeError

/-- `CurrentState.evolve_args`: runs the loop over the proposed changes and,
when anything survives, attaches `last_updated = {**self._last_updated,
**new_updates}` to the returned init arguments.  The `silence_warnings` flag
only selects logging and has no modelled effect. -/
def evolve_args (s : CurrentState) (silence_warnings : Bool) (changes : Batch) :
    Except PyErr Batch :=
  match evolve_args_core s.last_updated changes changes [] [] with
  | .error e => .error e
  | .ok (init_args, new_updates) =>
    .ok (if init_args.isEmpty then init_args
         else dict_set init_args "last_updated"
                (Val.ledger (dict_merge s.last_updated new_updates)))

/-- `attr.evolve`: every field takes the overriding evolve argument when
present and its current value otherwise — and, because `attr.evolve` calls
`__init__` with the full field set, the field's converter runs again on
the chosen value either way (so the non-idempotent `lock_lat_lng_conv`
rescales an untouched non-`None` lock coordinate).  The `last_updated`
argument is consumed by `__init__` and then overwritten by
`__attrs_post_init__`, so it never reaches a field. -/
def apply_args (fields : List (String × Val)) (args : Batch) : List (String × Val) :=
  fields.map (fun p => (p.1, apply_conv (conv_of p.1) ((alist_get args p.1).getD p.2)))

/-- `CurrentState.evolve`: computes the evolve arguments and builds a new
object unless nothing survived and `return_new_object_on_empty_data` is
false. -/
def evolve (s : CurrentState) (return_new : Bool) (silence_warnings : Bool)
    (changes : Batch) : Except PyErr CurrentState :=
  match evolve_args s silence_warnings changes with
  | .error e => .error e
  | .ok a =>
    .ok (if return_new || !a.isEmpty then attrs_post_init (apply_args s.fields a) else s)

/-- Status of the single-slot `asyncio.Future` used as the pending-command
signal: `pending` (not done), or `done` (result set, exception set, or
cancelled — `future.done()` returns `True` in all three cases). -/
inductive FutureState where
  | pending
  | done
deriving DecidableEq, Repr

/-- An immutable GPS/telemetry sample (`TrackingPoint` in `data.py`),
restricted to the fields `PandoraOnlineDevice.last_point` consumes. -/
structure TrackingPoint where
  device_id : Int
  track_id : Int
  timestamp : Option Int
  latitude : Val
  longitude : Val
  fuel : Option Int
  speed : Option Int
deriving DecidableEq, Repr

/-- The mutable per-vehicle session state of `PandoraOnlineDevice`:
device identifier, the device-local UTC offset override (`_utc_offset`,
falling back to the account's offset), the current `CurrentState`, the
pending-command future and the last tracking point.
`silence_update_warnings` only selects logging. -/
structure Device where
  device_id : Int
  account_utc_offset : Int
  utc_offset_dev : Option Int
  state : Option CurrentState
  control_future : Option FutureState
  last_point : Option TrackingPoint
  silence_update_warnings : Bool
deriving DecidableEq, Repr

/-- The `utc_offset` property: the device override or the account offset. -/
def utc_offset (d : Device) : Int :=
  d.utc_offset_dev.getD d.account_utc_offset

/-- `PandoraOnlineDevice.control_busy`:
`not (future is None or future.done())`. -/
def control_busy (d : Device) : Bool :=
  d.control_future = some FutureState.pending

/-- The `state` property setter: when a command is pending it resolves the
future if no previous state existed, or if the new state's `command`
UTC timestamp is strictly newer than the previous one's; comparing `None`
with an integer (either side) raises `TypeError` and the new state is not
stored.  By the field converters the attribute is always an integer or
`None`, so any other shape is also mapped to `TypeError`. -/
def set_state (d : Device) (v : CurrentState) : Except PyErr Device :=
  match d.state with
  | Option.none =>
    if control_busy d then .ok { d with control_future := Option.none, state := some v }
    else .ok { d with state := some v }
  | some old =>
    if control_busy d then
      match lookup_field old "command_timestamp_utc", lookup_field v "command_timestamp_utc" with
      | .num a, .num b =>
        if a < b then .ok { d with control_future := Option.none, state := some v }
        else .ok { d with state := some v }
      | _, _ => .error .typeError
    else .ok { d with state := some v }

/-- One iteration of the offset-extraction loop of `update_current_state`
for a prefix (`online` or `state`): `none` when either half of the
local/UTC pair is absent (or `None`) in the batch, otherwise the computed
offset `round((local - utc) / 60) * 60` (raising `TypeError` when a
present value is not a number). -/
def extract_pair (b : Batch) (pfx : String) : Option (Except PyErr Int) :=
  if get_or_none b (pfx ++ "_timestamp") = Val.none ∨
     get_or_none b (pfx ++ "_timestamp_utc") = Val.none then Option.none
  else some (match get_or_none b (pfx ++ "_timestamp"),
                   get_or_none b (pfx ++ "_timestamp_utc") with
    | .num a, .num c => .ok (round_half_even_div (a - c) 60 * 60)
    | _, _ => .error .typeError)

/-- The offset-extraction loop: prefixes `online` then `state`, first pair
with both halves present wins; falls back to the current offset. -/
def extract_utc_offset (cur : Int) (b : Batch) : Except PyErr Int :=
  match extract_pair b "online" with
  | some r => r
  | Option.none =>
    match extract_pair b "state" with
    | some r => r
    | Option.none => .ok cur

/-- One iteration of the backfill loop of `update_current_state` for a
prefix: when the UTC half is present and the local half absent, insert
`local = utc + offset`; when only the local half is present, insert
`utc = local - offset`. -/
def backfill_fam (off : Int) (b : Batch) (pfx : String) : Except PyErr Batch :=
  if get_or_none b (pfx ++ "_timestamp_utc") ≠ Val.none then
    if get_or_none b (pfx ++ "_timestamp") = Val.none then
      match get_or_none b (pfx ++ "_timestamp_utc") with
      | .num n => .ok (dict_set b (pfx ++ "_timestamp") (Val.num (n + off)))
      | _ => .error .typeError
    else .ok b
  else if get_or_none b (pfx ++ "_timestamp") ≠ Val.none then
    match get_or_none b (pfx ++ "_timestamp") with
    | .num n => .ok (dict_set b (pfx ++ "_timestamp_utc") (Val.num (n - off)))
    | _ => .error .typeError
  else .ok b

/-- The backfill loop of `update_current_state`: prefixes `online` then
`state` — and no others. -/
def backfill_timestamps (off : Int) (b : Batch) : Except PyErr Batch :=
  match backfill_fam off b "online" with
  | .error e => .error e
  | .ok b1 => backfill_fam off b1 "state"

/-- Field initialization of a direct `CurrentState(**state_args)` call:
every attrs field takes the keyword argument under its name when present,
its declared default otherwise, and its converter runs on the chosen
value (attrs applies converters to defaults as well). -/
def mk_raw_fields (args : Batch) : List (String × Val) :=
  SCHEMA.map (fun f => (f.name, apply_conv f.conv ((alist_get args f.name).getD f.dflt)))

/-- Direct construction `CurrentState(**state_args)` (the branch of
`update_current_state` taken when no state exists yet): unknown keyword
arguments and a missing required `identifier` raise `TypeError`; otherwise
the fields are initialized from the arguments and `__attrs_post_init__`
builds the ledger. -/
def construct_state (args : Batch) : Except PyErr CurrentState :=
  if args.all (fun p => known_attr p.1) then
    if (alist_get args "identifier").isSome then
      .ok (attrs_post_init (mk_raw_fields args))
    else .error .typeError
  else .error .typeError

/-- The conditional offset store of `update_current_state`: the freshly
resolved offset is written into the device override only when it differs
from the currently effective offset. -/
def store_offset (d : Device) (off : Int) : Device :=
  if utc_offset d ≠ off then { d with utc_offset_dev := some off } else d

/-- `PandoraOnlineDevice.update_current_state`: extracts/stores the UTC
offset, backfills the `online`/`state` timestamp pairs, then either
constructs a fresh state or evolves the existing one, storing the result
through the `state` setter and returning it with the applied arguments
(minus the popped `last_updated`).  The returned `Device` reflects every
mutation performed before an exception propagates (the offset store
happens before the merge can raise). -/
def update_current_state (d : Device) (b : Batch) :
    Device × Except PyErr (CurrentState × Batch) :=
  match extract_utc_offset (utc_offset d) b with
  | .error e => (d, .error e)
  | .ok off =>
    let d1 := store_offset d off
    match backfill_timestamps off b with
    | .error e => (d1, .error e)
    | .ok args =>
      match d1.state with
      | Option.none =>
        match construct_state args with
        | .error e => (d1, .error e)
        | .ok ns =>
          match set_state d1 ns with
          | .error e => (d1, .error e)
          | .ok d2 => (d2, .ok (ns, remove_key args "last_updated"))
      | some st =>
        match evolve_args st d1.silence_update_warnings args with
        | .error e => (d1, .error e)
        | .ok a1 =>
          if a1.isEmpty then (d1, .ok (st, []))
          else
            match evolve st false d1.silence_update_warnings a1 with
            | .error e => (d1, .error e)
            | .ok ns =>
              match set_state d1 ns with
              | .error e => (d1, .error e)
              | .ok d2 => (d2, .ok (ns, remove_key a1 "last_updated"))

/-- The evolve arguments assembled by the `last_point` setter from a fresh
tracking point: `fuel` and `speed` when non-`None`, then `latitude` and
`longitude` unconditionally. -/
def point_evolve_args (p : TrackingPoint) : Batch :=
  (match p.fuel with
   | some f => [("fuel", Val.num f)]
   | Option.none => []) ++
  (match p.speed with
   | some sp => [("speed", Val.num sp)]
   | Option.none => []) ++
  [("latitude", p.latitude), ("longitude", p.longitude)]

/-- The `last_point` property setter: rejects a point from another device;
when a current state exists and the point's timestamp is `None` or strictly
newer than the state's local `state_timestamp`, folds
position/fuel/speed into the state via the merge engine (writing
`_current_state` directly, bypassing the `state` setter); always stores the
point.  Comparing a non-numeric `state_timestamp` with the point's integer
timestamp raises `TypeError`. -/
def set_last_point (d : Device) (p : TrackingPoint) : Except PyErr Device :=
  if p.device_id ≠ d.device_id then
    .error (.valueError "Point does not belong to device identifier")
  else
    match d.state with
    | Option.none => .ok { d with last_point := some p }
    | some cs =>
      match p.timestamp with
      | Option.none =>
        match evolve cs false d.silence_update_warnings (point_evolve_args p) with
        | .error e => .error e
        | .ok cs' => .ok { d with state := some cs', last_point := some p }
      | some t =>
        match lookup_field cs "state_timestamp" with
        | .num st =>
          if st < t then
            match evolve cs false d.silence_update_warnings (point_evolve_args p) with
            | .error e => .error e
            | .ok cs' => .ok { d with state := some cs', last_point := some p }
          else .ok { d with last_point := some p }
        | _ => .error .typeError

/-- The synchronous dispatch prefix of
`PandoraOnlineDevice.async_remote_command`: requires a state, fails while a
command is pending, and (when completion tracking is requested) installs a
fresh pending future before handing off to the transport layer. -/
def async_remote_command (d : Device) (ensure_complete : Bool) : Except PyErr Device :=
  if d.state = Option.none then .error (.pandora "state update is required")
  else if control_busy d then .error (.pandora "device is busy executing command")
  else if ensure_complete then .ok { d with control_future := some FutureState.pending }
  else .ok d

/-- `PandoraOnlineDevice.release_control_lock`: raises when no lock is in
effect; otherwise resolves the future (with a result on success, an
exception on failure) and clears the slot either way. -/
def release_control_lock (d : Device) (error : Option String) : Except PyErr Device :=
  if d.control_future = Option.none then .error (.valueError "control lock is not in effect")
  else .ok { d with control_future := Option.none }

/-- Effect of `asyncio.wait_for` timing out on the pending future: the
future is cancelled, so `future.done()` becomes true and `control_busy`
releases. -/
def timeout_cancel (d : Device) : Device :=
  { d with control_future := some FutureState.done }

/-- `PandoraOnlineAccount.parse_device_id`: prefer the `dev_id` key, fall
back to `id` only when `dev_id` is absent (`KeyError`), reject falsy
identifier values, and convert with `int(...)`. -/
def parse_device_id (data : Batch) : Except PyErr Int :=
  match alist_get data "dev_id" with
  | some v =>
    if truthy v then py_int v
    else .error (.valueError "device ID is empty / zero")
  | Option.none =>
    match alist_get data "id" with
    | some v =>
      if truthy v then py_int v
      else .error (.valueError "device ID is empty / zero")
    | Option.none => .error .keyError

/-! Concrete fixtures used by witnesses and counterexamples. -/

/-- A state with `state_timestamp_utc=100` and `speed=50` (spec §8,
"Stale rejection"). -/
def stale_state : CurrentState :=
  attrs_post_init (mk_raw_fields
    [("identifier", Val.num 1), ("speed", Val.num 50), ("state_timestamp_utc", Val.num 100)])

/-- A session owning `stale_state`, with no pending command and zero
account offset. -/
def stale_device : Device :=
  ⟨1, 0, Option.none, some stale_state, Option.none, Option.none, true⟩

/-- The update batch `{speed: 10, state_timestamp_utc: 50}`. -/
def stale_batch : Batch :=
  [("speed", Val.num 10), ("state_timestamp_utc", Val.num 50)]

/-- A minimal state for the offset round-trip scenario. -/
def offset_state : CurrentState :=
  attrs_post_init (mk_raw_fields [("identifier", Val.num 1)])

/-- A session owning `offset_state` with zero account offset and no device
override. -/
def offset_device : Device :=
  ⟨1, 0, Option.none, some offset_state, Option.none, Option.none, true⟩

/-- First offset round-trip batch: paired local/UTC `state` timestamps. -/
def offset_batch1 : Batch :=
  [("state_timestamp", Val.num 1700000600), ("state_timestamp_utc", Val.num 1700000000)]

/-- Second offset round-trip batch: only the UTC half. -/
def offset_batch2 : Batch :=
  [("state_timestamp_utc", Val.num 1700001000)]

/-- A batch carrying only the UTC half of the `settings` family. -/
def settings_batch : Batch :=
  [("settings_timestamp_utc", Val.num 1000)]

/-- A batch strictly fresher than `stale_state` (timestamp `200 > 100`), so
no attribute of it is skipped. -/
def fresh_batch : Batch :=
  [("speed", Val.num 60), ("state_timestamp_utc", Val.num 200)]

/-- A state holding a non-`None` lock coordinate: `lock_latitude` arrived
as the scaled integer `5000000` and `lock_lat_lng_conv` stored `5.0`
(`flt 5000000 6`). -/
def lock_state : CurrentState :=
  attrs_post_init (mk_raw_fields
    [("identifier", Val.num 1), ("lock_latitude", Val.num 5000000),
     ("state_timestamp_utc", Val.num 100)])

/-- A session owning `lock_state`. -/
def lock_device : Device :=
  ⟨1, 0, Option.none, some lock_state, Option.none, Option.none, true⟩

/-- A fresh batch touching only the state timestamp. -/
def lock_batch : Batch :=
  [("state_timestamp_utc", Val.num 200)]

/-- A state with local and UTC `state` timestamps both `100` and
`speed=50`, for the tracking-point scenarios. -/
def point_state : CurrentState :=
  attrs_post_init (mk_raw_fields
    [("identifier", Val.num 1), ("speed", Val.num 50),
     ("state_timestamp", Val.num 100), ("state_timestamp_utc", Val.num 100)])

/-- A session owning `point_state`. -/
def point_device : Device :=
  ⟨1, 0, Option.none, some point_state, Option.none, Option.none, true⟩

/-- A tracking point whose timestamp exactly equals the state's local
`state` timestamp. -/
def equal_point : TrackingPoint :=
  ⟨1, 5, some 100, Val.num 33, Val.num 44, some 7, some 10⟩

/-! Helper lemmas about the dictionary model. -/

theorem alist_get_cons {α : Type} (p : String × α) (rest : List (String × α)) (k : String) :
    alist_get (p :: rest) k = if p.1 = k then some p.2 else alist_get rest k := by
  by_cases h : p.1 = k
  · simp [alist_get, List.find?_cons_of_pos, h]
  · simp [alist_get, List.find?_cons_of_neg, h]

theorem alist_get_dict_set_self {α : Type} (b : List (String × α)) (k : String) (v : α) :
    alist_get (dict_set b k v) k = some v := by
  induction b with
  | nil => simp [dict_set, alist_get_cons]
  | cons p rest ih =>
    by_cases hp : p.1 = k
    · simp [dict_set, hp, alist_get_cons]
    · simp [dict_set, hp, alist_get_cons, ih]

theorem alist_get_dict_set_ne {α : Type} (b : List (String × α)) (k k' : String) (v : α)
    (h : k' ≠ k) : alist_get (dict_set b k v) k' = alist_get b k' := by
  have hkk : ¬(k = k') := fun hh => h hh.symm
  induction b with
  | nil =>
    rw [show dict_set ([] : List (String × α)) k v = [(k, v)] from rfl]
    rw [alist_get_cons, if_neg hkk]
  | cons p rest ih =>
    by_cases hp : p.1 = k
    · rw [show dict_set (p :: rest) k v = (k, v) :: rest by simp [dict_set, hp]]
      rw [alist_get_cons, alist_get_cons, if_neg hkk, if_neg (hp ▸ hkk : ¬p.1 = k')]
    · rw [show dict_set (p :: rest) k v = p :: dict_set rest k v by simp [dict_set, hp]]
      rw [alist_get_cons, alist_get_cons, ih]

theorem alist_get_append_of_some {α : Type} {a c : List (String × α)} {k : String}
    {v : α} (h : alist_get a k = some v) : alist_get (a ++ c) k = some v := by
  induction a with
  | nil => simp [alist_get] at h
  | cons p rest ih =>
    rw [alist_get_cons] at h
    rw [List.cons_append, alist_get_cons]
    by_cases hp : p.1 = k
    · simpa [hp] using h
    · rw [if_neg hp]; exact ih (by simpa [hp] using h)

theorem alist_get_append_of_none {α : Type} {a : List (String × α)} {k : String}
    (c : List (String × α)) (h : alist_get a k = Option.none) :
    alist_get (a ++ c) k = alist_get c k := by
  induction a with
  | nil => simp
  | cons p rest ih =>
    rw [alist_get_cons] at h
    by_cases hp : p.1 = k
    · simp [hp] at h
    · rw [List.cons_append, alist_get_cons, if_neg hp]
      exact ih (by simpa [hp] using h)

theorem backfill_fam_get_ne (off : Int) (b : Batch) (pfx : String) (b' : Batch)
    (h : backfill_fam off b pfx = .ok b') (k : String)
    (h1 : k ≠ pfx ++ "_timestamp") (h2 : k ≠ pfx ++ "_timestamp_utc") :
    alist_get b' k = alist_get b k := by
  unfold backfill_fam at h
  split_ifs at h with hc1 hc2 hc3
  · split at h
    next n hn => cases h; exact alist_get_dict_set_ne _ _ _ _ h1
    next => cases h
  · cases h; rfl
  · split at h
    next n hn => cases h; exact alist_get_dict_set_ne _ _ _ _ h2
    next => cases h
  · cases h; rfl

theorem alist_get_eq_some_imp {α : Type} {b : List (String × α)} {k : String} {v : α}
    (h : alist_get b k = some v) : (k, v) ∈ b := by
  unfold alist_get at h
  cases hf : b.find? (fun p => p.1 == k) with
  | none => rw [hf] at h; cases h
  | some p =>
    rw [hf] at h
    have hpk : p.1 = k := by simpa using List.find?_some hf
    have hpv : p.2 = v := by simpa using h
    have := List.mem_of_find?_eq_some hf
    rw [← hpk, ← hpv]
    exact this

theorem get_or_none_shape {b : Batch} (hv : ∀ p ∈ b, num_or_none p.2 = true)
    (k : String) :
    get_or_none b k = Val.none ∨ ∃ n, get_or_none b k = Val.num n := by
  cases hg : alist_get b k with
  | none => left; simp [get_or_none, hg]
  | some v =>
    have hmem := alist_get_eq_some_imp hg
    have hsh := hv _ hmem
    cases v with
    | num n => right; exact ⟨n, by simp [get_or_none, hg]⟩
    | none => left; simp [get_or_none, hg]
    | flt m s => simp [num_or_none] at hsh
    | str s => simp [num_or_none] at hsh
    | emptySeq => simp [num_or_none] at hsh
    | ledger m => simp [num_or_none] at hsh

theorem extract_ok {b : Batch} (hv : ∀ p ∈ b, num_or_none p.2 = true) (cur : Int) :
    ∃ off, extract_utc_offset cur b = .ok off := by
  have hpair : ∀ pfx, extract_pair b pfx = Option.none ∨
      ∃ n, extract_pair b pfx = some (.ok n) := by
    intro pfx
    unfold extract_pair
    by_cases hc : get_or_none b (pfx ++ "_timestamp") = Val.none ∨
        get_or_none b (pfx ++ "_timestamp_utc") = Val.none
    · left; rw [if_pos hc]
    · right
      push_neg at hc
      rcases get_or_none_shape hv (pfx ++ "_timestamp") with h1 | ⟨a, h1⟩
      · exact absurd h1 hc.1
      rcases get_or_none_shape hv (pfx ++ "_timestamp_utc") with h2 | ⟨c, h2⟩
      · exact absurd h2 hc.2
      refine ⟨round_half_even_div (a - c) 60 * 60, ?_⟩
      rw [if_neg (by push_neg; exact hc), h1, h2]
  unfold extract_utc_offset
  rcases hpair "online" with h | ⟨n, h⟩
  · rw [h]
    rcases hpair "state" with h' | ⟨n', h'⟩
    · rw [h']; exact ⟨cur, rfl⟩
    · rw [h']; exact ⟨n', rfl⟩
  · rw [h]; exact ⟨n, rfl⟩

theorem mem_dict_set {α : Type} {b : List (String × α)} {k : String} {v : α} {p : String × α}
    (h : p ∈ dict_set b k v) : p ∈ b ∨ p = (k, v) := by
  induction b with
  | nil => simpa [dict_set] using h
  | cons q rest ih =>
    by_cases hq : q.1 = k
    · rw [show dict_set (q :: rest) k v = (k, v) :: rest by simp [dict_set, hq]] at h
      rcases List.mem_cons.mp h with rfl | hm
      · right; rfl
      · left; exact List.mem_cons_of_mem _ hm
    · rw [show dict_set (q :: rest) k v = q :: dict_set rest k v by simp [dict_set, hq]] at h
      rcases List.mem_cons.mp h with rfl | hm
      · left; exact List.mem_cons_self _ _
      · rcases ih hm with hm' | hm'
        · left; exact List.mem_cons_of_mem _ hm'
        · right; exact hm'

theorem backfill_fam_entry {off : Int} {b : Batch} {pfx : String} {b' : Batch}
    (h : backfill_fam off b pfx = .ok b') :
    ∀ p ∈ b', p ∈ b ∨ ∃ n, p.2 = Val.num n ∧
      (p.1 = pfx ++ "_timestamp" ∨ p.1 = pfx ++ "_timestamp_utc") := by
  unfold backfill_fam at h
  split_ifs at h with hc1 hc2 hc3
  · split at h
    next n hn =>
      cases h
      intro p hp
      rcases mem_dict_set hp with hm | rfl
      · exact Or.inl hm
      · exact Or.inr ⟨n + off, rfl, Or.inl rfl⟩
    next => cases h
  · cases h; intro p hp; exact Or.inl hp
  · split at h
    next n hn =>
      cases h
      intro p hp
      rcases mem_dict_set hp with hm | rfl
      · exact Or.inl hm
      · exact Or.inr ⟨n - off, rfl, Or.inr rfl⟩
    next => cases h
  · cases h; intro p hp; exact Or.inl hp

theorem backfill_fam_ok {b : Batch} (hv : ∀ p ∈ b, num_or_none p.2 = true)
    (off : Int) (pfx : String) : ∃ b', backfill_fam off b pfx = .ok b' := by
  unfold backfill_fam
  split_ifs with hc1 hc2 hc3
  · rcases get_or_none_shape hv (pfx ++ "_timestamp_utc") with h | ⟨n, h⟩
    · exact absurd h hc1
    · rw [h]; exact ⟨_, rfl⟩
  · exact ⟨b, rfl⟩
  · rcases get_or_none_shape hv (pfx ++ "_timestamp") with h | ⟨n, h⟩
    · exact absurd h hc3
    · rw [h]; exact ⟨_, rfl⟩
  · exact ⟨b, rfl⟩

theorem backfill_ok {b : Batch} (hv : ∀ p ∈ b, num_or_none p.2 = true) (off : Int) :
    ∃ args, backfill_timestamps off b = .ok args ∧
      ∀ p ∈ args, num_or_none p.2 = true := by
  obtain ⟨b1, h1⟩ := backfill_fam_ok hv off "online"
  have hv1 : ∀ p ∈ b1, num_or_none p.2 = true := by
    intro p hp
    rcases backfill_fam_entry h1 p hp with hm | ⟨n, hn, _⟩
    · exact hv p hm
    · rw [hn]; rfl
  obtain ⟨b2, h2⟩ := backfill_fam_ok hv1 off "state"
  have hv2 : ∀ p ∈ b2, num_or_none p.2 = true := by
    intro p hp
    rcases backfill_fam_entry h2 p hp with hm | ⟨n, hn, _⟩
    · exact hv1 p hm
    · rw [hn]; rfl
  exact ⟨b2, by unfold backfill_timestamps; rw [h1]; exact h2, hv2⟩

theorem find_attr_ts_governed {k tk : String} (h : find_attr_ts k = some (some tk)) :
    tk = "state_timestamp_utc" ∧ ∃ f, f ∈ SCHEMA ∧ f.name = k ∧ f.ts = some tk := by
  unfold find_attr_ts at h
  split_ifs at h with hlu
  · cases h
  · cases hf : SCHEMA.find? (fun f => f.name == k) with
    | none => rw [hf] at h; cases h
    | some f =>
      rw [hf] at h
      have hts : f.ts = some tk := by simpa using h
      have hmem : f ∈ SCHEMA := List.mem_of_find?_eq_some hf
      have hname : f.name = k := by simpa using List.find?_some hf
      have hall : ∀ g ∈ SCHEMA, g.ts = Option.none ∨ g.ts = some "state_timestamp_utc" := by
        decide
      rcases hall f hmem with hg | hg
      · rw [hg] at hts; cases hts
      · rw [hg] at hts
        exact ⟨(Option.some.injEq _ _).mp hts.symm, f, hmem, hname, hts ▸ hg⟩

theorem ledger_keys_indep (l : List FieldSpec) (fields : List (String × Val)) :
    (l.filterMap (fun f =>
        f.ts.map (fun tk => (f.name, py_or_neg1 (get_or_none fields tk))))).map Prod.fst
      = l.filterMap (fun f => f.ts.map (fun _ => f.name)) := by
  induction l with
  | nil => rfl
  | cons f rest ih => cases hts : f.ts <;> simp [List.filterMap_cons, hts, ih]

theorem attrs_ledger_keys_nodup (fields : List (String × Val)) :
    ((attrs_post_init_ledger fields).map Prod.fst).Nodup := by
  unfold attrs_post_init_ledger
  rw [ledger_keys_indep]
  decide

theorem alist_get_eq_of_mem_nodup {α : Type} {l : List (String × α)}
    (hnd : (l.map Prod.fst).Nodup) {k : String} {v : α} (hm : (k, v) ∈ l) :
    alist_get l k = some v := by
  induction l with
  | nil => cases hm
  | cons p rest ih =>
    have hnd' : p.1 ∉ rest.map Prod.fst ∧ (rest.map Prod.fst).Nodup := by
      rw [List.map_cons, List.nodup_cons] at hnd; exact hnd
    rcases List.mem_cons.mp hm with heq | hmem
    · rw [← heq, alist_get_cons]; simp
    · rw [alist_get_cons]
      by_cases hp : p.1 = k
      · exfalso
        exact hnd'.1 (hp ▸ (List.mem_map.mpr ⟨(k, v), hmem, rfl⟩))
      · rw [if_neg hp]
        exact ih hnd'.2 hmem

theorem ledger_lookup_of_governed {s : CurrentState} (hpi : IsPostInit s)
    {k tk : String} (h : find_attr_ts k = some (some tk)) :
    alist_get s.last_updated k = some (ledger_val s) := by
  obtain ⟨htk, f, hmem, hname, hts⟩ := find_attr_ts_governed h
  subst htk
  have hin : (f.name, py_or_neg1 (get_or_none s.fields "state_timestamp_utc")) ∈
      attrs_post_init_ledger s.fields := by
    apply List.mem_filterMap.mpr
    exact ⟨f, hmem, by rw [hts]; rfl⟩
  rw [hname] at hin
  rw [hpi]
  exact alist_get_eq_of_mem_nodup (attrs_ledger_keys_nodup _) hin

theorem store_offset_state (d : Device) (off : Int) :
    (store_offset d off).state = d.state := by
  unfold store_offset; split <;> rfl

theorem store_offset_busy (d : Device) (off : Int) :
    control_busy (store_offset d off) = control_busy d := by
  unfold store_offset; split <;> rfl

theorem store_offset_silence (d : Device) (off : Int) :
    (store_offset d off).silence_update_warnings = d.silence_update_warnings := by
  unfold store_offset; split <;> rfl

theorem utc_offset_store (d : Device) (off : Int) :
    utc_offset (store_offset d off) = off := by
  unfold store_offset
  split
  · rfl
  · next h => push_neg at h; exact h

theorem evolve_args_core_unknown
    (ledger : List (String × Int)) (changes : Batch)
    (hty : num_or_none (get_or_none changes "state_timestamp_utc") = true)
    (hl : ∀ k tk, find_attr_ts k = some (some tk) → (alist_get ledger k).isSome) :
    ∀ rest init nu, (∃ p ∈ rest, known_attr p.1 = false) →
      ∃ k, known_attr k = false ∧
        evolve_args_core ledger changes rest init nu =
          .error (.valueError ("Unknown attribute: " ++ k)) := by
  intro rest
  induction rest with
  | nil => rintro init nu ⟨p, hp, _⟩; cases hp
  | cons q rest ih =>
    rintro init nu ⟨p, hp, hpk⟩
    obtain ⟨kq, vq⟩ := q
    by_cases hq : known_attr kq = true
    · have hrest : ∃ p ∈ rest, known_attr p.1 = false := by
        rcases List.mem_cons.mp hp with heq | hm
        · exfalso; rw [heq] at hpk; rw [hpk] at hq; cases hq
        · exact ⟨p, hm, hpk⟩
      obtain ⟨ts, hts⟩ : ∃ ts, find_attr_ts kq = some ts := by
        unfold known_attr at hq
        cases hfa : find_attr_ts kq with
        | none => rw [hfa] at hq; cases hq
        | some ts => exact ⟨ts, rfl⟩
      cases ts with
      | none =>
        obtain ⟨k, hk, hres⟩ := ih (dict_set init kq vq) nu hrest
        exact ⟨k, hk, by simp only [evolve_args_core, hts]; exact hres⟩
      | some tk =>
        have htk : tk = "state_timestamp_utc" := (find_attr_ts_governed hts).1
        subst htk
        cases hgv : get_or_none changes "state_timestamp_utc" with
        | none =>
          obtain ⟨k, hk, hres⟩ := ih (dict_set init kq vq) nu hrest
          exact ⟨k, hk, by simp only [evolve_args_core, hts, hgv]; exact hres⟩
        | num t =>
          obtain ⟨lu, hlu⟩ : ∃ lu, alist_get ledger kq = some lu :=
            Option.isSome_iff_exists.mp (hl kq _ hts)
          by_cases hcmp : t < lu
          · obtain ⟨k, hk, hres⟩ := ih init nu hrest
            exact ⟨k, hk, by
              simp only [evolve_args_core, hts, hgv, hlu, if_pos hcmp]; exact hres⟩
          · obtain ⟨k, hk, hres⟩ := ih (dict_set init kq vq) (dict_set nu kq t) hrest
            exact ⟨k, hk, by
              simp only [evolve_args_core, hts, hgv, hlu, if_neg hcmp]; exact hres⟩
        | flt m s => rw [hgv] at hty; simp [num_or_none] at hty
        | str sv => rw [hgv] at hty; simp [num_or_none] at hty
        | emptySeq => rw [hgv] at hty; simp [num_or_none] at hty
        | ledger m => rw [hgv] at hty; simp [num_or_none] at hty
    · have hfa : find_attr_ts kq = Option.none := by
        unfold known_attr at hq
        cases hfa : find_attr_ts kq with
        | none => rfl
        | some ts => rw [hfa] at hq; simp at hq
      refine ⟨kq, by simpa using hq, ?_⟩
      simp only [evolve_args_core, hfa]

theorem extract_stable {cur v : Int} {b : Batch}
    (h : extract_utc_offset cur b = .ok v) : extract_utc_offset v b = .ok v := by
  unfold extract_utc_offset at h ⊢
  cases h1 : extract_pair b "online" with
  | some r => rw [h1] at h; rw [h]
  | none =>
    rw [h1] at h
    cases h2 : extract_pair b "state" with
    | some r => rw [h2] at h; rw [h]
    | none => rw [h2] at h

theorem alist_get_none_of_keys {α : Type} {b : List (String × α)} {k : String}
    (h : ∀ p ∈ b, p.1 ≠ k) : alist_get b k = Option.none := by
  unfold alist_get
  rw [List.find?_eq_none.mpr (by intro p hp; simpa using h p hp)]
  rfl

theorem alist_get_isSome_of_key_mem {α : Type} {l : List (String × α)} {k : String}
    (h : k ∈ l.map Prod.fst) : (alist_get l k).isSome := by
  obtain ⟨p, hp, hpk⟩ := List.mem_map.mp h
  unfold alist_get
  cases hff : l.find? (fun q => q.1 == k) with
  | none =>
    exfalso
    have hsome := List.find?_isSome.mpr (⟨p, hp, by simp [hpk]⟩ :
      ∃ x ∈ l, (fun q => q.1 == k) x)
    rw [hff] at hsome
    simp at hsome
  | some q => rfl

theorem dict_set_eq_append {α : Type} {b : List (String × α)} {k : String}
    (v : α) (h : alist_get b k = Option.none) : dict_set b k v = b ++ [(k, v)] := by
  induction b with
  | nil => rfl
  | cons p rest ih =>
    rw [alist_get_cons] at h
    by_cases hp : p.1 = k
    · simp [hp] at h
    · rw [show dict_set (p :: rest) k v = p :: dict_set rest k v by simp [dict_set, hp]]
      rw [ih (by simpa [hp] using h)]
      rfl

theorem key_mem_dict_set {α : Type} {b : List (String × α)} {k k' : String} {v : α}
    (h : k' ∈ (dict_set b k v).map Prod.fst) : k' ∈ b.map Prod.fst ∨ k' = k := by
  obtain ⟨p, hp, hpk⟩ := List.mem_map.mp h
  rcases mem_dict_set hp with hm | rfl
  · exact Or.inl (hpk ▸ List.mem_map.mpr ⟨p, hm, rfl⟩)
  · exact Or.inr (by simpa using hpk.symm)

theorem dict_set_keys_nodup {α : Type} {b : List (String × α)} (k : String) (v : α)
    (h : (b.map Prod.fst).Nodup) : ((dict_set b k v).map Prod.fst).Nodup := by
  induction b with
  | nil => simp [dict_set]
  | cons p rest ih =>
    have hh : p.1 ∉ rest.map Prod.fst ∧ (rest.map Prod.fst).Nodup := by
      rw [List.map_cons, List.nodup_cons] at h; exact h
    by_cases hp : p.1 = k
    · rw [show dict_set (p :: rest) k v = (k, v) :: rest by simp [dict_set, hp]]
      rw [List.map_cons, List.nodup_cons]
      exact ⟨hp ▸ hh.1, hh.2⟩
    · rw [show dict_set (p :: rest) k v = p :: dict_set rest k v by simp [dict_set, hp]]
      rw [List.map_cons, List.nodup_cons]
      refine ⟨fun hmem => ?_, ih hh.2⟩
      rcases key_mem_dict_set hmem with hm | he
      · exact hh.1 hm
      · exact hp he

theorem dict_set_ne_nil {α : Type} (b : List (String × α)) (k : String) (v : α) :
    dict_set b k v ≠ [] := by
  cases b with
  | nil => simp [dict_set]
  | cons p rest =>
    unfold dict_set
    split <;> simp

theorem dict_set_append_last {α : Type} {xs : List (String × α)} {k : String}
    (v w : α) (h : alist_get xs k = Option.none) :
    dict_set (xs ++ [(k, v)]) k w = xs ++ [(k, w)] := by
  induction xs with
  | nil => simp [dict_set]
  | cons p rest ih =>
    rw [alist_get_cons] at h
    by_cases hp : p.1 = k
    · simp [hp] at h
    · rw [List.cons_append,
        show dict_set (p :: (rest ++ [(k, v)])) k w =
          p :: dict_set (rest ++ [(k, v)]) k w by simp [dict_set, hp]]
      rw [ih (by simpa [hp] using h)]
      rfl

theorem alist_get_append_single_ne {α : Type} (xs : List (String × α))
    {k k' : String} (v : α) (h : k' ≠ k) :
    alist_get (xs ++ [(k, v)]) k' = alist_get xs k' := by
  cases hx : alist_get xs k' with
  | some w => exact alist_get_append_of_some hx
  | none =>
    rw [alist_get_append_of_none _ hx, alist_get_cons,
      if_neg (fun hh => h hh.symm)]
    rfl

theorem remove_key_append_last {xs : Batch} {k : String} (v : Val)
    (h : ∀ p ∈ xs, p.1 ≠ k) : remove_key (xs ++ [(k, v)]) k = xs := by
  unfold remove_key
  rw [List.filter_append]
  rw [List.filter_eq_self.mpr (by intro p hp; simpa using h p hp)]
  simp

theorem backfill_fam_shape {off : Int} {b : Batch} {pfx : String} {b' : Batch}
    (h : backfill_fam off b pfx = .ok b') :
    b' = b ∨ ∃ kk n, (kk = pfx ++ "_timestamp" ∨ kk = pfx ++ "_timestamp_utc") ∧
      b' = dict_set b kk (Val.num n) := by
  unfold backfill_fam at h
  split_ifs at h with hc1 hc2 hc3
  · split at h
    next n hn => cases h; exact Or.inr ⟨_, _, Or.inl rfl, rfl⟩
    next => cases h
  · cases h; exact Or.inl rfl
  · split at h
    next n hn => cases h; exact Or.inr ⟨_, _, Or.inr rfl, rfl⟩
    next => cases h
  · cases h; exact Or.inl rfl

theorem backfill_preserves_ok {off : Int} {b args : Batch}
    (h : backfill_timestamps off b = .ok args) (hbk : BatchKeysOK b) :
    BatchKeysOK args := by
  obtain ⟨hnd, hent⟩ := hbk
  unfold backfill_timestamps at h
  cases h1 : backfill_fam off b "online" with
  | error e => rw [h1] at h; cases h
  | ok b1 =>
    rw [h1] at h
    have step : ∀ (pfx : String) (x y : Batch), backfill_fam off x pfx = .ok y →
        (pfx = "online" ∨ pfx = "state") → BatchKeysOK x → BatchKeysOK y := by
      intro pfx x y hxy hpfx ⟨hxnd, hxent⟩
      rcases backfill_fam_shape hxy with rfl | ⟨kk, n, hkk, rfl⟩
      · exact ⟨hxnd, hxent⟩
      · refine ⟨dict_set_keys_nodup _ _ hxnd, ?_⟩
        intro p hp
        rcases mem_dict_set hp with hm | rfl
        · exact hxent p hm
        · rcases hpfx with rfl | rfl <;> rcases hkk with rfl | rfl <;>
            refine ⟨?_, rfl, ?_⟩ <;> (dsimp only; decide)
    exact step "state" b1 args h (Or.inr rfl)
      (step "online" b b1 h1 (Or.inl rfl) ⟨hnd, hent⟩)

theorem backfill_ne_nil {off : Int} {b args : Batch}
    (h : backfill_timestamps off b = .ok args) (hne : b ≠ []) : args ≠ [] := by
  unfold backfill_timestamps at h
  cases h1 : backfill_fam off b "online" with
  | error e => rw [h1] at h; cases h
  | ok b1 =>
    rw [h1] at h
    have hb1 : b1 ≠ [] := by
      rcases backfill_fam_shape h1 with rfl | ⟨kk, n, _, rfl⟩
      · exact hne
      · exact dict_set_ne_nil _ _ _
    rcases backfill_fam_shape h with rfl | ⟨kk, n, _, rfl⟩
    · exact hb1
    · exact dict_set_ne_nil _ _ _

theorem apply_args_keys (fields : List (String × Val)) (args : Batch) :
    (apply_args fields args).map Prod.fst = fields.map Prod.fst := by
  unfold apply_args
  rw [List.map_map]
  rfl

theorem apply_args_congr_append (fields : List (String × Val)) (args : Batch)
    {k : String} (v : Val) (hk : ∀ p ∈ fields, p.1 ≠ k) :
    apply_args fields (args ++ [(k, v)]) = apply_args fields args := by
  unfold apply_args
  apply List.map_congr_left
  intro p hp
  rw [alist_get_append_single_ne _ _ (hk p hp)]

theorem apply_conv_none (c : Conv) : apply_conv c Val.none = Val.none := by
  cases c <;> rfl

theorem apply_conv_idem {c : Conv} (hc : c ≠ Conv.cLock) (v : Val) :
    apply_conv c (apply_conv c v) = apply_conv c v := by
  cases c with
  | raw => rfl
  | cInt =>
    cases v with
    | none => rfl
    | num n => rfl
    | flt m s => rfl
    | str s => cases hp : str_to_int_opt s <;> simp [apply_conv, hp]
    | emptySeq => rfl
    | ledger m => rfl
  | cFloat =>
    cases v with
    | none => rfl
    | num n => rfl
    | flt m s => rfl
    | str s => cases hp : str_to_int_opt s <;> simp [apply_conv, hp]
    | emptySeq => rfl
    | ledger m => rfl
  | cBool =>
    cases v with
    | none => rfl
    | num n => by_cases h : n = 0 <;> simp [apply_conv, truthy, h]
    | flt m s => by_cases h : m = 0 <;> simp [apply_conv, truthy, h]
    | str s => by_cases h : s.isEmpty <;> simp [apply_conv, truthy, h]
    | emptySeq => rfl
    | ledger m => by_cases h : m.isEmpty <;> simp [apply_conv, truthy, h]
  | cEmp =>
    by_cases h : truthy v = true
    · simp [apply_conv, h]
    · have hv : apply_conv Conv.cEmp v = Val.none := by simp [apply_conv, h]
      rw [hv]
      decide
  | cLock => exact absurd rfl hc
  | cList => rfl

theorem apply_args_idem_of (fields : List (String × Val)) (args : Batch)
    (h : ∀ p ∈ fields,
      (alist_get args p.1).isSome ∨ conv_of p.1 ≠ Conv.cLock ∨ p.2 = Val.none) :
    apply_args (apply_args fields args) args = apply_args fields args := by
  unfold apply_args
  rw [List.map_map]
  apply List.map_congr_left
  intro p hp
  cases hg : alist_get args p.1 with
  | some w => simp [Function.comp, hg]
  | none =>
    rcases h p hp with hs | hc | hv
    · rw [hg] at hs; simp at hs
    · simp [Function.comp, hg, apply_conv_idem hc]
    · simp [Function.comp, hg, hv, apply_conv_none]

theorem alist_get_apply_args (fields : List (String × Val)) (args : Batch)
    (k : String) :
    alist_get (apply_args fields args) k =
      (alist_get fields k).map
        (fun v => apply_conv (conv_of k) ((alist_get args k).getD v)) := by
  induction fields with
  | nil => rfl
  | cons p rest ih =>
    rw [show apply_args (p :: rest) args =
      (p.1, apply_conv (conv_of p.1) ((alist_get args p.1).getD p.2)) ::
        apply_args rest args from rfl]
    rw [alist_get_cons, alist_get_cons]
    by_cases hp : p.1 = k
    · rw [if_pos hp, if_pos hp, hp]
      rfl
    · rw [if_neg hp, if_neg hp, ih]

theorem set_state_not_busy (d : Device) (v : CurrentState)
    (hnb : control_busy d = false) :
    set_state d v = .ok { d with state := some v } := by
  unfold set_state
  cases hd : d.state <;> simp [hnb]

theorem evolve_args_core_applied
    (ledger : List (String × Int)) (changes : Batch) (LV : Int)
    (hl : ∀ k tk, find_attr_ts k = some (some tk) → alist_get ledger k = some LV)
    (hty : num_or_none (get_or_none changes "state_timestamp_utc") = true)
    (hbound : ∀ t, get_or_none changes "state_timestamp_utc" = Val.num t → LV ≤ t) :
    ∀ rest init nu,
      (∀ p ∈ rest, known_attr p.1 = true) →
      (rest.map Prod.fst).Nodup →
      (∀ k, k ∈ rest.map Prod.fst → alist_get init k = Option.none) →
      ∃ nu', evolve_args_core ledger changes rest init nu = .ok (init ++ rest, nu') := by
  intro rest
  induction rest with
  | nil =>
    intro init nu _ _ _
    exact ⟨nu, by simp [evolve_args_core]⟩
  | cons q rest ih =>
    rintro init nu hknown hnodup hinit
    obtain ⟨kq, vq⟩ := q
    have hkq : known_attr kq = true := by
      simpa using hknown (kq, vq) (List.mem_cons_self _ _)
    have hkqget : alist_get init kq = Option.none := hinit kq (by simp)
    have hnd : kq ∉ rest.map Prod.fst ∧ (rest.map Prod.fst).Nodup := by
      rw [List.map_cons, List.nodup_cons] at hnodup; exact hnodup
    have hset : dict_set init kq vq = init ++ [(kq, vq)] := dict_set_eq_append vq hkqget
    have hinit' : ∀ k, k ∈ rest.map Prod.fst →
        alist_get (init ++ [(kq, vq)]) k = Option.none := by
      intro k hkmem
      have hkne : k ≠ kq := fun he => hnd.1 (by rw [← he]; exact hkmem)
      rw [alist_get_append_single_ne _ _ hkne]
      exact hinit k (by simp [hkmem])
    have hknown' : ∀ p ∈ rest, known_attr p.1 = true :=
      fun p hp => hknown p (List.mem_cons_of_mem _ hp)
    have happend : (init ++ [(kq, vq)]) ++ rest = init ++ ((kq, vq) :: rest) := by simp
    obtain ⟨ts, hts⟩ : ∃ ts, find_attr_ts kq = some ts := by
      unfold known_attr at hkq
      cases hfa : find_attr_ts kq with
      | none => rw [hfa] at hkq; cases hkq
      | some ts => exact ⟨ts, rfl⟩
    cases ts with
    | none =>
      obtain ⟨nu', hres⟩ := ih (init ++ [(kq, vq)]) nu hknown' hnd.2 hinit'
      refine ⟨nu', ?_⟩
      simp only [evolve_args_core, hts, hset]
      rw [hres, happend]
    | some tk =>
      have htk : tk = "state_timestamp_utc" := (find_attr_ts_governed hts).1
      subst htk
      cases hgv : get_or_none changes "state_timestamp_utc" with
      | none =>
        obtain ⟨nu', hres⟩ := ih (init ++ [(kq, vq)]) nu hknown' hnd.2 hinit'
        refine ⟨nu', ?_⟩
        simp only [evolve_args_core, hts, hgv, hset]
        rw [hres, happend]
      | num t =>
        have hlu : alist_get ledger kq = some LV := hl kq _ hts
        have hcmp : ¬ t < LV := not_lt.mpr (hbound t hgv)
        obtain ⟨nu', hres⟩ := ih (init ++ [(kq, vq)]) (dict_set nu kq t) hknown' hnd.2 hinit'
        refine ⟨nu', ?_⟩
        simp only [evolve_args_core, hts, hgv, hlu, if_neg hcmp, hset]
        rw [hres, happend]
      | flt m s => rw [hgv] at hty; simp [num_or_none] at hty
      | str sv => rw [hgv] at hty; simp [num_or_none] at hty
      | emptySeq => rw [hgv] at hty; simp [num_or_none] at hty
      | ledger m => rw [hgv] at hty; simp [num_or_none] at hty

theorem evolve_args_noskip (s : CurrentState) (sil : Bool) (args : Batch)
    (hpi : IsPostInit s)
    (hknown : ∀ p ∈ args, known_attr p.1 = true)
    (hnodup : (args.map Prod.fst).Nodup)
    (hty : num_or_none (get_or_none args "state_timestamp_utc") = true)
    (hns : NoSkip s args)
    (hne : args ≠ [])
    (hnl : ∀ p ∈ args, p.1 ≠ "last_updated") :
    ∃ lv, evolve_args s sil args =
      .ok (args ++ [("last_updated", Val.ledger lv)]) := by
  have hbound : ∀ t, get_or_none args "state_timestamp_utc" = Val.num t →
      ledger_val s ≤ t := by
    intro t ht
    unfold NoSkip at hns
    rw [ht] at hns
    exact hns
  obtain ⟨nu', hcore⟩ := evolve_args_core_applied s.last_updated args (ledger_val s)
    (fun k tk h => ledger_lookup_of_governed hpi h) hty hbound args [] []
    hknown hnodup (fun k _ => rfl)
  refine ⟨dict_merge s.last_updated nu', ?_⟩
  unfold evolve_args
  rw [hcore]
  have hie : args.isEmpty = false := by
    cases args with
    | nil => exact absurd rfl hne
    | cons p rest => rfl
  simp only [List.nil_append, hie, Bool.false_eq_true, if_false]
  rw [dict_set_eq_append _ (alist_get_none_of_keys hnl)]

theorem evolve_args_noskip_again (s : CurrentState) (sil : Bool) (args : Batch)
    (lv : List (String × Int)) (hpi : IsPostInit s)
    (hknown : ∀ p ∈ args, known_attr p.1 = true)
    (hnodup : (args.map Prod.fst).Nodup)
    (hty : num_or_none (get_or_none args "state_timestamp_utc") = true)
    (hns : NoSkip s args)
    (hnl : ∀ p ∈ args, p.1 ≠ "last_updated") :
    ∃ lv2, evolve_args s sil (args ++ [("last_updated", Val.ledger lv)]) =
      .ok (args ++ [("last_updated", Val.ledger lv2)]) := by
  have hbound : ∀ t, get_or_none args "state_timestamp_utc" = Val.num t →
      ledger_val s ≤ t := by
    intro t ht
    unfold NoSkip at hns
    rw [ht] at hns
    exact hns
  have hgetlu : alist_get args "last_updated" = Option.none :=
    alist_get_none_of_keys hnl
  have hget : ∀ k, k ≠ "last_updated" →
      alist_get (args ++ [("last_updated", Val.ledger lv)]) k = alist_get args k :=
    fun k hk => alist_get_append_single_ne _ _ hk
  have hgon : get_or_none (args ++ [("last_updated", Val.ledger lv)]) "state_timestamp_utc" =
      get_or_none args "state_timestamp_utc" := by
    unfold get_or_none
    rw [hget _ (by decide)]
  have hknown' : ∀ p ∈ args ++ [("last_updated", Val.ledger lv)], known_attr p.1 = true := by
    intro p hp
    rcases List.mem_append.mp hp with hm | hm
    · exact hknown p hm
    · rw [List.mem_singleton.mp hm]; dsimp only; decide
  have hnodup' : ((args ++ [("last_updated", Val.ledger lv)]).map Prod.fst).Nodup := by
    rw [List.map_append]
    refine List.Nodup.append hnodup (List.nodup_singleton _) ?_
    intro a ha hb
    obtain ⟨p, hp, hpk⟩ := List.mem_map.mp ha
    have : a = "last_updated" := by simpa using hb
    exact hnl p hp (hpk ▸ this ▸ rfl)
  obtain ⟨nu', hcore⟩ := evolve_args_core_applied s.last_updated
    (args ++ [("last_updated", Val.ledger lv)]) (ledger_val s)
    (fun k tk h => ledger_lookup_of_governed hpi h)
    (by rw [hgon]; exact hty)
    (by intro t ht; rw [hgon] at ht; exact hbound t ht)
    (args ++ [("last_updated", Val.ledger lv)]) [] [] hknown' hnodup' (fun k _ => rfl)
  refine ⟨dict_merge s.last_updated nu', ?_⟩
  unfold evolve_args
  rw [hcore]
  have hie : (args ++ [("last_updated", Val.ledger lv)]).isEmpty = false := by
    cases args <;> rfl
  simp only [List.nil_append, hie, Bool.false_eq_true, if_false]
  rw [dict_set_append_last _ _ hgetlu]

theorem update_once (d : Device) (s : CurrentState) (b args : Batch) (off : Int)
    (hs : d.state = some s) (hpi : IsPostInit s) (hshape : FieldsShaped s)
    (hnb : control_busy d = false) (hbk : BatchKeysOK b) (hbne : b ≠ [])
    (hoff : extract_utc_offset (utc_offset d) b = .ok off)
    (hargs : backfill_timestamps off b = .ok args)
    (hns : NoSkip s args) :
    update_current_state d b =
      ({ store_offset d off with
         state := some (attrs_post_init (apply_args s.fields args)) },
       .ok (attrs_post_init (apply_args s.fields args), args)) := by
  obtain ⟨hand, hent⟩ := backfill_preserves_ok hargs hbk
  have hknown : ∀ p ∈ args, known_attr p.1 = true := fun p hp => (hent p hp).1
  have hvals : ∀ p ∈ args, num_or_none p.2 = true := fun p hp => (hent p hp).2.1
  have hnl : ∀ p ∈ args, p.1 ≠ "last_updated" := fun p hp => (hent p hp).2.2
  have hane : args ≠ [] := backfill_ne_nil hargs hbne
  have hty : num_or_none (get_or_none args "state_timestamp_utc") = true := by
    rcases get_or_none_shape hvals "state_timestamp_utc" with h | ⟨n, h⟩ <;> rw [h] <;> rfl
  obtain ⟨lv, hea1⟩ := evolve_args_noskip s (store_offset d off).silence_update_warnings
    args hpi hknown hand hty hns hane hnl
  obtain ⟨lv2, hea2⟩ := evolve_args_noskip_again s (store_offset d off).silence_update_warnings
    args lv hpi hknown hand hty hns hnl
  have hfieldsnl : ∀ p ∈ s.fields, p.1 ≠ "last_updated" := by
    intro p hp he
    have hmem : p.1 ∈ SCHEMA.map FieldSpec.name :=
      hshape ▸ List.mem_map.mpr ⟨p, hp, rfl⟩
    rw [he] at hmem
    exact absurd hmem (by decide)
  have hev : evolve s false (store_offset d off).silence_update_warnings
      (args ++ [("last_updated", Val.ledger lv)]) =
      .ok (attrs_post_init (apply_args s.fields args)) := by
    unfold evolve
    rw [hea2]
    have hie : (args ++ [("last_updated", Val.ledger lv2)]).isEmpty = false := by
      cases args <;> rfl
    simp only [hie, Bool.not_false, Bool.false_or, if_true]
    rw [apply_args_congr_append s.fields args (Val.ledger lv2) hfieldsnl]
  have hd1s : (store_offset d off).state = some s := by rw [store_offset_state, hs]
  unfold update_current_state
  rw [hoff]
  dsimp only
  rw [hargs]
  dsimp only
  rw [hd1s]
  dsimp only
  rw [hea1]
  have hie1 : (args ++ [("last_updated", Val.ledger lv)]).isEmpty = false := by
    cases args <;> rfl
  simp only [hie1, Bool.false_eq_true, if_false]
  rw [hev]
  dsimp only
  rw [set_state_not_busy _ _ (by rw [store_offset_busy]; exact hnb)]
  rw [remove_key_append_last (Val.ledger lv) hnl]

/-! Claim theorems. -/

/-- C1: the freshness ledger is not monotone.  `stale_state` records
freshness `100` for `speed`; merging the batch `{state_timestamp_utc: 50}`
(an ungoverned attribute, applied unconditionally) produces a state whose
ledger entry for `speed` is `50 < 100`: `__attrs_post_init__` rebuilds the
ledger from the new object's timestamps, discarding the merged ledger that
`evolve_args` passed in. -/
theorem c1_ledger_regression :
    alist_get stale_state.last_updated "speed" = some 100 ∧
    (evolve stale_state false true [("state_timestamp_utc", Val.num 50)]).map
        (fun s => alist_get s.last_updated "speed") = .ok (some 50) := by
  exact ⟨by decide, by decide⟩

/-- C3 counterexample: merging `{speed: 10, state_timestamp_utc: 50}` into a
state with `state_timestamp_utc=100, speed=50` does not leave the state
unchanged with empty changed fields, contrary to the claim. -/
theorem c3_counterexample :
    ¬((update_current_state stale_device stale_batch).2.map Prod.fst = .ok stale_state ∧
      (update_current_state stale_device stale_batch).2.map Prod.snd = .ok []) := by
  decide

/-- C3 amended: the stale `speed` update is skipped (`speed` stays `50` and
is absent from the changed fields), but the ungoverned timestamp attributes
are applied: the result has `state_timestamp_utc = 50` and the changed
fields are exactly the applied timestamp halves. -/
theorem c3_amended :
    (update_current_state stale_device stale_batch).2.map Prod.snd =
      .ok [("state_timestamp_utc", Val.num 50), ("state_timestamp", Val.num 50)] ∧
    (update_current_state stale_device stale_batch).2.map
        (fun r => lookup_field r.1 "speed") = .ok (Val.num 50) ∧
    (update_current_state stale_device stale_batch).2.map
        (fun r => lookup_field r.1 "state_timestamp_utc") = .ok (Val.num 50) := by
  exact ⟨by decide, by decide, by decide⟩

/-- C4 counterexample: applying `{speed: 10, state_timestamp_utc: 50}` twice
to `stale_device` yields a non-empty changed-field mapping on the second
application and a different resulting state (the first application lowers
the ledger to `50`, so the second one accepts the previously stale
`speed=10`). -/
theorem c4_counterexample :
    (update_current_state (update_current_state stale_device stale_batch).1 stale_batch).2.map
        Prod.snd ≠ .ok [] ∧
    (update_current_state (update_current_state stale_device stale_batch).1 stale_batch).2.map
        Prod.fst ≠
      (update_current_state stale_device stale_batch).2.map Prod.fst := by
  exact ⟨by decide, by decide⟩

/-- C2 counterexample: a batch carrying only `settings_timestamp_utc` is not
backfilled — the backfill loop covers only the `online` and `state`
families, so the batch passes through unchanged, the changed fields contain
only the UTC half, and the state has no local `settings` attribute at
all. -/
theorem c2_counterexample :
    backfill_timestamps 600 settings_batch = .ok settings_batch ∧
    backfill_timestamps 600 [("command_timestamp_utc", Val.num 1000)] =
      .ok [("command_timestamp_utc", Val.num 1000)] ∧
    (update_current_state offset_device settings_batch).2.map Prod.snd =
      .ok settings_batch ∧
    (update_current_state offset_device settings_batch).2.map
        (fun r => alist_get r.1.fields "settings_timestamp") = .ok Option.none := by
  exact ⟨by decide, by decide, by decide, by decide⟩

/-- C8: with paired `state` timestamps local `1700000600` / UTC
`1700000000`, the session stores the device offset
`round(600 / 60) * 60 = 600`; a later batch with only
`state_timestamp_utc = 1700001000` is backfilled to
`state_timestamp = 1700001600` in both the changed fields and the resulting
state. -/
theorem c8_offset_round_trip :
    (update_current_state offset_device offset_batch1).1.utc_offset_dev = some 600 ∧
    (update_current_state (update_current_state offset_device offset_batch1).1
        offset_batch2).2.map (fun r => alist_get r.2 "state_timestamp") =
      .ok (some (Val.num 1700001600)) ∧
    (update_current_state (update_current_state offset_device offset_batch1).1
        offset_batch2).2.map (fun r => lookup_field r.1 "state_timestamp") =
      .ok (Val.num 1700001600) := by
  exact ⟨by decide, by decide, by decide⟩

/-- C5 counterexample: a tracking point whose timestamp equals the state's
`state` timestamp (`100 = 100`) is stored as the last point but is not
folded into the state (`speed` stays `50`, `latitude` stays `None`): the
setter requires the point to be strictly newer. -/
theorem c5_counterexample :
    (set_last_point point_device equal_point).map
        (fun d => (d.state.map (fun s => (lookup_field s "speed", lookup_field s "latitude")),
                   d.last_point)) =
      .ok (some (Val.num 50, Val.none), some equal_point) := by
  decide

/-- C7: while a command dispatched with completion tracking is unresolved
(`control_busy`), any further dispatch fails with the "device is busy"
error; once the pending future is resolved — success
(`release_control_lock` with no error), failure (with an error), or the
`asyncio.wait_for` timeout cancelling the future — the session is no
longer busy and a subsequent dispatch installs a fresh pending future
instead of failing. -/
theorem c7_single_in_flight (d : Device) (hb : control_busy d = true)
    (hs : d.state.isSome) :
    (∀ ec, async_remote_command d ec =
       .error (.pandora "device is busy executing command")) ∧
    (∀ msg d', release_control_lock d msg = .ok d' →
       control_busy d' = false ∧
       async_remote_command d' true =
         .ok { d' with control_future := some FutureState.pending }) ∧
    (control_busy (timeout_cancel d) = false ∧
     async_remote_command (timeout_cancel d) true =
       .ok { timeout_cancel d with control_future := some FutureState.pending }) := by
  have hcf : d.control_future = some FutureState.pending := by
    simpa [control_busy] using hb
  have hsn : ¬ d.state = Option.none := by
    cases h : d.state with
    | none => rw [h] at hs; simp at hs
    | some _ => simp [h]
  refine ⟨fun ec => by simp [async_remote_command, hsn, hb], fun msg d' h => ?_, ?_, ?_⟩
  · have hd' : d' = { d with control_future := Option.none } := by
      unfold release_control_lock at h
      rw [if_neg (by simp [hcf])] at h
      exact (Except.ok.injEq _ _).mp h.symm ▸ rfl
    subst hd'
    exact ⟨by simp [control_busy], by simp [async_remote_command, control_busy, hsn]⟩
  · simp [control_busy, timeout_cancel]
  · simp [async_remote_command, timeout_cancel, control_busy, hsn]

/-- C7 witness: a busy session with a state; dispatch fails busy, and after
a successful release a dispatch succeeds. -/
theorem c7_witness :
    (async_remote_command
       ⟨1, 0, Option.none, some stale_state, some FutureState.pending, Option.none, true⟩ true =
     .error (.pandora "device is busy executing command")) ∧
    (async_remote_command
       ⟨1, 0, Option.none, some stale_state, Option.none, Option.none, true⟩ true =
     .ok ⟨1, 0, Option.none, some stale_state, some FutureState.pending, Option.none, true⟩) := by
  refine ⟨(c7_single_in_flight _ (by decide) (by decide)).1 true, ?_⟩
  exact ((c7_single_in_flight
      ⟨1, 0, Option.none, some stale_state, some FutureState.pending, Option.none, true⟩
      (by decide) (by decide)).2.1 Option.none _ (by decide)).2

/-- C9: `parse_device_id` converts the value under `dev_id` when that key is
present and otherwise the value under `id`; a falsy (zero/empty) identifier
value raises the invalid-device-id `ValueError` — including when `dev_id`
is present but falsy, in which case no fallback to `id` happens. -/
theorem c9_parse_device_id (data : Batch) :
    (∀ v, alist_get data "dev_id" = some v →
       (truthy v = true → parse_device_id data = py_int v) ∧
       (truthy v = false →
          parse_device_id data = .error (.valueError "device ID is empty / zero"))) ∧
    (alist_get data "dev_id" = Option.none →
       ∀ w, alist_get data "id" = some w →
         (truthy w = true → parse_device_id data = py_int w) ∧
         (truthy w = false →
            parse_device_id data = .error (.valueError "device ID is empty / zero"))) := by
  constructor
  · intro v hv
    constructor <;> intro ht <;> simp [parse_device_id, hv, ht]
  · intro hnone w hw
    constructor <;> intro ht <;> simp [parse_device_id, hnone, hw, ht]

/-- C9 witness: `dev_id` wins and is converted; a zero `dev_id` is rejected
without falling back to a valid `id`; `id` is used when `dev_id` is
absent. -/
theorem c9_witness :
    parse_device_id [("dev_id", Val.num 17), ("id", Val.num 3)] = .ok 17 ∧
    parse_device_id [("dev_id", Val.num 0), ("id", Val.num 7)] =
      .error (.valueError "device ID is empty / zero") ∧
    parse_device_id [("id", Val.str "42")] = .ok 42 := by
  refine ⟨?_, ?_, ?_⟩
  · exact ((c9_parse_device_id [("dev_id", Val.num 17), ("id", Val.num 3)]).1
      (Val.num 17) (by decide)).1 (by decide)
  · exact ((c9_parse_device_id [("dev_id", Val.num 0), ("id", Val.num 7)]).1
      (Val.num 0) (by decide)).2 (by decide)
  · exact (((c9_parse_device_id [("id", Val.str "42")]).2 (by decide)
      (Val.str "42") (by decide)).1 (by decide)).trans (by decide)

/-- C10: replacing the session's state while a command is pending and a
previous state exists compares the two `command_timestamp_utc` values with
a strict less-than; whenever either value is `None` the assignment raises
`TypeError` (so no new state is stored), and when both are integers the
assignment succeeds, resolving the pending future exactly when the new
value is strictly greater. -/
theorem c10_set_state_totality (d : Device) (old v : CurrentState)
    (hold : d.state = some old) (hb : control_busy d = true) :
    ((lookup_field old "command_timestamp_utc" = Val.none ∨
      lookup_field v "command_timestamp_utc" = Val.none) →
        set_state d v = .error .typeError) ∧
    (∀ a b, lookup_field old "command_timestamp_utc" = Val.num a →
       lookup_field v "command_timestamp_utc" = Val.num b →
       set_state d v =
         .ok (if a < b then { d with control_future := Option.none, state := some v }
              else { d with state := some v })) := by
  constructor
  · rintro (h1 | h2)
    · cases h2 : lookup_field v "command_timestamp_utc" <;>
        simp [set_state, hold, hb, h1, h2]
    · cases h1 : lookup_field old "command_timestamp_utc" <;>
        simp [set_state, hold, hb, h1, h2]
  · intro a b ha hbv
    simp only [set_state, hold, hb, if_true, ha, hbv]
    split <;> simp_all

/-- C10 witness: with a pending command and an existing state whose command
UTC timestamp is `None`, storing a state carrying `command_timestamp_utc =
5` raises `TypeError`; with both timestamps integers the store succeeds. -/
theorem c10_witness :
    set_state
      ⟨1, 0, Option.none, some offset_state, some FutureState.pending, Option.none, true⟩
      (attrs_post_init (mk_raw_fields
        [("identifier", Val.num 1), ("command_timestamp_utc", Val.num 5)])) =
      .error .typeError := by
  exact (c10_set_state_totality _ offset_state _ rfl (by decide)).1 (Or.inl (by decide))

/-- C2 amended: after offset resolution, the backfill step runs only for the
`online` and `state` timestamp families — every key other than those four
timestamp keys is untouched by backfilling; in particular
`settings_timestamp_utc` and `command_timestamp_utc` are never paired with
a backfilled local half (the schema has no local `settings`/`command`
attributes at all). -/
theorem c2_amended (off : Int) (b b' : Batch) (h : backfill_timestamps off b = .ok b')
    (k : String)
    (hk : k ∉ (["online_timestamp", "online_timestamp_utc",
                "state_timestamp", "state_timestamp_utc"] : List String)) :
    alist_get b' k = alist_get b k := by
  simp only [List.mem_cons, List.not_mem_nil, or_false, not_or] at hk
  obtain ⟨hk1, hk2, hk3, hk4⟩ := hk
  unfold backfill_timestamps at h
  cases h1 : backfill_fam off b "online" with
  | error e => rw [h1] at h; cases h
  | ok b1 =>
    rw [h1] at h
    have e1 := backfill_fam_get_ne off b "online" b1 h1 k hk1 hk2
    have e2 := backfill_fam_get_ne off b1 "state" b' h k hk3 hk4
    rw [e2, e1]

/-- C2 witness: backfilling the batch holding only
`state_timestamp_utc = 1700001000` with offset `600` leaves the
`settings_timestamp_utc` key (absent) untouched. -/
theorem c2_witness :
    alist_get
      [("state_timestamp_utc", Val.num 1700001000),
       ("state_timestamp", Val.num 1700001600)] "settings_timestamp_utc" =
      alist_get offset_batch2 "settings_timestamp_utc" := by
  exact c2_amended 600 offset_batch2 _ (by decide) "settings_timestamp_utc" (by decide)

/-- The merge of the arguments assembled from a tracking point always
succeeds and produces a new object: all four keys are known, and none of
them brings its governing timestamp along, so every one is applied via the
warn path (no ledger comparison). -/
theorem evolve_point_args_ok (cs : CurrentState) (sil : Bool) (p : TrackingPoint) :
    ∃ cs', evolve cs false sil (point_evolve_args p) = .ok cs' := by
  cases hf : p.fuel <;> cases hs : p.speed <;>
    · simp only [point_evolve_args, hf, hs]
      exact ⟨_, rfl⟩

/-- C5 amended: a tracking point with matching device id is folded into the
current state only when its timestamp is strictly newer than the state's
local `state` timestamp (or is `None`); at equality or older the state is
untouched — and in both cases the point is stored as the last point. -/
theorem c5_amended (d : Device) (p : TrackingPoint) (cs : CurrentState) (st t : Int)
    (hid : p.device_id = d.device_id) (hst : d.state = some cs)
    (hts : lookup_field cs "state_timestamp" = Val.num st) (hpt : p.timestamp = some t) :
    (st < t → ∃ cs', evolve cs false d.silence_update_warnings (point_evolve_args p) = .ok cs' ∧
       set_last_point d p = .ok { d with state := some cs', last_point := some p }) ∧
    (¬ st < t → set_last_point d p = .ok { d with last_point := some p }) := by
  constructor
  · intro hlt
    obtain ⟨cs', hcs'⟩ := evolve_point_args_ok cs d.silence_update_warnings p
    exact ⟨cs', hcs', by simp [set_last_point, hid, hst, hpt, hts, hlt, hcs']⟩
  · intro hge
    simp [set_last_point, hid, hst, hpt, hts, hge]

/-- C5 witness: a strictly newer point (`150 > 100`) is folded (the state
comes from the merge engine) and stored as last point. -/
theorem c5_witness :
    ∃ cs', evolve point_state false true
        (point_evolve_args ⟨1, 5, some 150, Val.num 33, Val.num 44, some 7, some 10⟩) =
        .ok cs' ∧
      set_last_point point_device ⟨1, 5, some 150, Val.num 33, Val.num 44, some 7, some 10⟩ =
        .ok { point_device with
              state := some cs',
              last_point := some ⟨1, 5, some 150, Val.num 33, Val.num 44, some 7, some 10⟩ } := by
  exact (c5_amended point_device _ point_state 100 150 rfl rfl (by decide) rfl).1 (by decide)

/-- C6: merging a batch that contains a key unknown to the schema raises the
unknown-attribute error (a `ValueError` whose message names the offending
attribute) and leaves the session's current State Model unmodified — the
merge never reaches the point of building or storing a new state.  Batch
values are restricted to the integer/`None` shapes the field converters
produce so that the timestamp plumbing preceding the merge cannot raise
first. -/
theorem c6_unknown_attribute (d : Device) (s : CurrentState) (b : Batch)
    (hs : d.state = some s) (hpi : IsPostInit s)
    (hv : ∀ p ∈ b, num_or_none p.2 = true)
    (k₀ : String) (hk₀ : known_attr k₀ = false) (hk₀m : (alist_get b k₀).isSome) :
    ∃ k, known_attr k = false ∧
      (update_current_state d b).2 =
        .error (.valueError ("Unknown attribute: " ++ k)) ∧
      (update_current_state d b).1.state = d.state := by
  obtain ⟨off, hoff⟩ := extract_ok hv (utc_offset d)
  obtain ⟨args, hargs, hargsv⟩ := backfill_ok hv off
  have hk₀args : (alist_get args k₀).isSome := by
    rw [c2_amended off b args hargs k₀ ?_]
    · exact hk₀m
    · intro hmm
      rcases (by simpa using hmm : k₀ = "online_timestamp" ∨ k₀ = "online_timestamp_utc" ∨
          k₀ = "state_timestamp" ∨ k₀ = "state_timestamp_utc") with rfl | rfl | rfl | rfl <;>
        exact absurd hk₀ (by decide)
  have hunk : ∃ p ∈ args, known_attr p.1 = false := by
    obtain ⟨v₀, hv₀⟩ := Option.isSome_iff_exists.mp hk₀args
    exact ⟨(k₀, v₀), alist_get_eq_some_imp hv₀, hk₀⟩
  have hty : num_or_none (get_or_none args "state_timestamp_utc") = true := by
    rcases get_or_none_shape hargsv "state_timestamp_utc" with h | ⟨n, h⟩ <;> rw [h] <;> rfl
  have hl : ∀ k tk, find_attr_ts k = some (some tk) → (alist_get s.last_updated k).isSome := by
    intro k tk hk
    rw [ledger_lookup_of_governed hpi hk]; rfl
  obtain ⟨k, hk, hcore⟩ := evolve_args_core_unknown s.last_updated args hty hl args [] [] hunk
  have hea : ∀ sil, evolve_args s sil args =
      .error (.valueError ("Unknown attribute: " ++ k)) := by
    intro sil; unfold evolve_args; rw [hcore]
  have hd1 : (store_offset d off).state = some s := by rw [store_offset_state, hs]
  have hres : update_current_state d b =
      (store_offset d off, .error (.valueError ("Unknown attribute: " ++ k))) := by
    unfold update_current_state
    rw [hoff]
    dsimp only
    rw [hargs]
    dsimp only
    rw [hd1]
    dsimp only
    rw [hea]
  refine ⟨k, hk, ?_, ?_⟩
  · rw [hres]
  · rw [hres, store_offset_state]

/-- C4 amended: duplicate delivery is not idempotent in general (see the
counterexample), but when no attribute of the batch is rejected as stale
on the first application — the batch's governing `state_timestamp_utc`
(after backfill) is absent or at least the ledger value — and every lock
coordinate of the state is either `None` or overridden by the batch (the
non-idempotent `lock_lat_lng_conv` would otherwise rescale it on each
evolve, see `update_reapplies_lock_conv`), applying the same batch a
second time returns exactly the same result: the same resulting state,
the same (in general non-empty) changed-field mapping, and an unchanged
session.  Batch values are restricted to shapes their field converters
accept without raising (`conv_safe`). -/
theorem c4_amended (d : Device) (s : CurrentState) (b args : Batch) (off : Int)
    (hs : d.state = some s) (hpi : IsPostInit s) (hshape : FieldsShaped s)
    (hnb : control_busy d = false) (hbk : BatchKeysOK b)
    (hoff : extract_utc_offset (utc_offset d) b = .ok off)
    (hargs : backfill_timestamps off b = .ok args)
    (hns : NoSkip s args)
    (hconv : ∀ p ∈ b, conv_safe (conv_of p.1) p.2 = true)
    (hlock : ∀ p ∈ s.fields,
      (alist_get args p.1).isSome ∨ conv_of p.1 ≠ Conv.cLock ∨ p.2 = Val.none) :
    update_current_state ((update_current_state d b).1) b =
      update_current_state d b := by
  by_cases hbne : b = []
  · subst hbne
    have h1 : update_current_state d [] = (d, .ok (s, [])) := by
      unfold update_current_state
      rw [show extract_utc_offset (utc_offset d) ([] : Batch) = .ok (utc_offset d) from rfl]
      dsimp only
      have hso : store_offset d (utc_offset d) = d := by unfold store_offset; simp
      rw [show backfill_timestamps (utc_offset d) ([] : Batch) = .ok [] from rfl]
      dsimp only
      rw [hso, hs]
      dsimp only
      rw [show evolve_args s d.silence_update_warnings [] = .ok [] from rfl]
      simp
    rw [h1]
    dsimp only
    rw [h1]
  · have h1 := update_once d s b args off hs hpi hshape hnb hbk hbne hoff hargs hns
    have hshape1 : FieldsShaped (attrs_post_init (apply_args s.fields args)) := by
      unfold FieldsShaped
      rw [show (attrs_post_init (apply_args s.fields args)).fields =
        apply_args s.fields args from rfl, apply_args_keys]
      exact hshape
    have hd2s : (update_current_state d b).1.state =
        some (attrs_post_init (apply_args s.fields args)) := by rw [h1]
    have hnb2 : control_busy (update_current_state d b).1 = false := by
      rw [h1]
      show control_busy (store_offset d off) = false
      rw [store_offset_busy]
      exact hnb
    have hoff2 : extract_utc_offset (utc_offset (update_current_state d b).1) b =
        .ok off := by
      rw [h1]
      show extract_utc_offset (utc_offset (store_offset d off)) b = .ok off
      rw [utc_offset_store]
      exact extract_stable hoff
    have hns2 : NoSkip (attrs_post_init (apply_args s.fields args)) args := by
      unfold NoSkip
      cases hgv : get_or_none args "state_timestamp_utc" with
      | num t =>
        obtain ⟨old, hold⟩ : ∃ old, alist_get s.fields "state_timestamp_utc" = some old := by
          apply Option.isSome_iff_exists.mp
          apply alist_get_isSome_of_key_mem
          rw [hshape]
          decide
        have hargsget : alist_get args "state_timestamp_utc" = some (Val.num t) := by
          unfold get_or_none at hgv
          cases hga : alist_get args "state_timestamp_utc" with
          | none => rw [hga] at hgv; simp at hgv
          | some w => rw [hga] at hgv; simp at hgv; rw [hgv]
        have hfin : get_or_none (attrs_post_init (apply_args s.fields args)).fields
            "state_timestamp_utc" = Val.num t := by
          unfold get_or_none
          rw [show (attrs_post_init (apply_args s.fields args)).fields =
            apply_args s.fields args from rfl]
          rw [alist_get_apply_args, hold]
          rw [show conv_of "state_timestamp_utc" = Conv.cInt from by decide]
          simp [hargsget, apply_conv]
        unfold ledger_val
        rw [hfin]
        show (if t = 0 then (-1 : Int) else t) ≤ t
        split <;> omega
      | none => trivial
      | flt m s => trivial
      | str sv => trivial
      | emptySeq => trivial
      | ledger m => trivial
    have h2 := update_once (update_current_state d b).1
      (attrs_post_init (apply_args s.fields args)) b args off hd2s rfl
      hshape1 hnb2 hbk hbne hoff2 hargs hns2
    have hofu : utc_offset (update_current_state d b).1 = off := by
      rw [h1]
      show utc_offset (store_offset d off) = off
      exact utc_offset_store d off
    have hso2 : store_offset (update_current_state d b).1 off =
        (update_current_state d b).1 := by
      unfold store_offset
      rw [if_neg (by rw [hofu]; simp)]
    have hidem : attrs_post_init (apply_args
        (attrs_post_init (apply_args s.fields args)).fields args) =
        attrs_post_init (apply_args s.fields args) := by
      rw [show (attrs_post_init (apply_args s.fields args)).fields =
        apply_args s.fields args from rfl, apply_args_idem_of s.fields args hlock]
    rw [h2, hso2, hidem, h1]

/-- C4 witness: the fresh batch `{speed: 60, state_timestamp_utc: 200}` on
`stale_device` (ledger value `100 ≤ 200`, nothing skipped): the second
application returns exactly the first application's device, state and
changed fields. -/
theorem c4_witness :
    update_current_state (update_current_state stale_device fresh_batch).1 fresh_batch =
      update_current_state stale_device fresh_batch := by
  exact c4_amended stale_device stale_state fresh_batch
    [("speed", Val.num 60), ("state_timestamp_utc", Val.num 200),
     ("state_timestamp", Val.num 200)] 0
    rfl rfl (by unfold FieldsShaped; decide) (by decide)
    (by unfold BatchKeysOK; decide) (by decide) (by decide) (by decide)
    (by decide) (by decide)

/-- Evolving a state re-runs `lock_lat_lng_conv` on an untouched lock
coordinate: `lock_state` stores `lock_latitude = 5.0` (`flt 5000000 6`),
one application of a fresh timestamp-only batch rescales it by another
factor of `10^6`, and a second application rescales it again — duplicate
delivery is not idempotent for lock-bearing states even without stale
skips, which is why the amended C4 carries its lock hypothesis. -/
theorem update_reapplies_lock_conv :
    lookup_field lock_state "lock_latitude" = Val.flt 5000000 6 ∧
    (update_current_state lock_device lock_batch).2.map
        (fun r => lookup_field r.1 "lock_latitude") =
      .ok (Val.flt 5000000 12) ∧
    (update_current_state (update_current_state lock_device lock_batch).1
        lock_batch).2.map (fun r => lookup_field r.1 "lock_latitude") =
      .ok (Val.flt 5000000 18) ∧
    (update_current_state (update_current_state lock_device lock_batch).1
        lock_batch).2.map Prod.fst ≠
      (update_current_state lock_device lock_batch).2.map Prod.fst := by
  exact ⟨by decide, by decide, by decide, by decide⟩

/-- C6 witness: the batch `{"not_a_real_field": 1}` raises the
unknown-attribute error on `stale_device` and leaves its state in
place. -/
theorem c6_witness :
    ∃ k, known_attr k = false ∧
      (update_current_state stale_device [("not_a_real_field", Val.num 1)]).2 =
        .error (.valueError ("Unknown attribute: " ++ k)) ∧
      (update_current_state stale_device [("not_a_real_field", Val.num 1)]).1.state =
        stale_device.state :=
  c6_unknown_attribute stale_device stale_state _ rfl rfl (by decide)
    "not_a_real_field" (by decide) (by decide)

end PandoraCas
